import Mathlib

/-!
# farmer: a line-oriented broadcast relay

A shallow embedding of `farmer.go`.  The server (`Farmer`) owns a registry of
sensor connections and three bounded channels; `Farmer.Start` is its select
loop, `Farmer.listen` the accept loop, `Farmer.handle` the per-connection read
loop.  `Sensor` is the client.  The goroutines are put together in a small
transition system (`Sys`, `Action`, `step`, `exec`) whose schedule is explicit.

Conventions
* A Go string is a byte sequence; it is embedded as a `List Char` (`Str`).
* A `*net.Conn` is an opaque pointer; it is embedded as a number (`Conn`).
  `listen` takes the address of a variable declared inside its loop body, so
  every accepted connection has its own pointer.
* A Go map has one entry per key; it is embedded as an `AList`.  The order in
  which `range` visits a map is unspecified; here it is the order of the
  entries of the `AList`.  A statement made for every registry holds for every
  order of its entries, hence for every order of visit.
* `fmt.Printf` calls only print; they are left out.
* A write `fmt.Fprint(*conn, msg)` returns without error, returns an error, or
  does not return: no write deadline is set anywhere, so a write waits as long
  as the peer does not read (`WriteRes`).  A send on a channel waits while the
  buffer is full; a read waits while no newline has arrived and the stream is
  open.
* A step of a goroutine in `step` is one iteration of its loop, taken as a
  whole once it can complete; `Start` alone can stop in the middle of one, in
  its send on `broadcast` or in a write that does not return, which
  `StartStep.blocked` records.
-/

namespace farmer

/-- Go `string`. -/
abbrev Str := List Char

/-- Identity of a `*net.Conn`. -/
abbrev Conn := Nat

/-- Error of a read: `io.EOF` or any other error. -/
inductive ReadErr
  | EOF
  | other
deriving DecidableEq, Repr

/-- Value pair `(msg, err)` returned by `ReadString`. -/
structure ReadResult where
  msg : Str
  err : Option ReadErr
deriving DecidableEq, Repr

/-- Input side of a connection as a reader sees it: the bytes that have arrived
and are unread, and what a read finds once they are used up (`none`: nothing
yet, the read waits; `some e`: the read fails with `e`). -/
structure Stream where
  data : Str
  fin : Option ReadErr
deriving DecidableEq, Repr

/-- Split at the first `delim`: the text up to and including it, and the rest. -/
def splitDelim (delim : Char) : Str → Option (Str × Str)
  | [] => none
  | c :: cs =>
    if c = delim then some ([c], cs)
    else
      match splitDelim delim cs with
      | none => none
      | some (line, rest) => some (c :: line, rest)

/-- Library `bufio.Reader.ReadString(delim)`: reads until the first occurrence
of `delim`, returning the data up to and including the delimiter; if it meets
an error before finding a delimiter it returns the data read before the error
and the error.  `none`: the read has not returned (no delimiter yet, stream
still open).  The second component is what is left for the same reader. -/
def ReadString (delim : Char) (st : Stream) : Option (ReadResult × Stream) :=
  match splitDelim delim st.data with
  | some (line, rest) => some (⟨line, none⟩, ⟨rest, st.fin⟩)
  | none =>
    match st.fin with
    | none => none
    | some e => some (⟨st.data, some e⟩, ⟨[], some e⟩)

/-- Send on a buffered channel of capacity `cap`: `none` when the buffer is
full (the sender waits). -/
def chanSend {α : Type} (cap : Nat) (buf : List α) (v : α) : Option (List α) :=
  if buf.length < cap then some (buf ++ [v]) else none

/-- Receive from a buffered channel: `none` when the buffer is empty. -/
def chanRecv {α : Type} (buf : List α) : Option (α × List α) :=
  match buf with
  | [] => none
  | v :: rest => some (v, rest)

/-- SensorConnection represents a device connection to the Farm Server. -/
structure SensorConnection where
  message : Str
  conn : Conn
deriving DecidableEq, Repr

/-- Farmer: the registry and the buffers of the three channels (the listener is
transport and is not part of the state). -/
structure Farmer where
  sensors : AList (fun _ : Conn => Str)
  register : List SensorConnection
  unregister : List Conn
  broadcast : List Str

/-- Capacity of `register`: `make(chan *SensorConnection, 1)`. -/
def registerCap : Nat := 1

/-- Capacity of `unregister`: `make(chan *net.Conn, 1)`. -/
def unregisterCap : Nat := 1

/-- Capacity of `broadcast`: `make(chan string, 20)`. -/
def broadcastCap : Nat := 20

/-- The literal `f := Farmer{...}` of `NewFarmer`. -/
def freshFarmer : Farmer :=
  { sensors := ∅, register := [], unregister := [], broadcast := [] }

/-- NewFarmer: `listenErr` is the error of `net.Listen`, if any. -/
def NewFarmer (listenErr : Option Str) : Except Str Farmer :=
  match listenErr with
  | some err => .error err
  | none => .ok freshFarmer

/-- `fmt.Sprintf("Sensor: %s registered\n", m)`. -/
def registeredText (m : Str) : Str :=
  "Sensor: ".toList ++ m ++ " registered\n".toList

/-- `fmt.Sprintf("sensor message: %s", m)`. -/
def sensorMessageText (m : Str) : Str :=
  "sensor message: ".toList ++ m

/-- Value carried by one of the three channels. -/
inductive Event
  | register (s : SensorConnection)
  | broadcast (msg : Str)
  | unregister (conn : Conn)
deriving DecidableEq, Repr

/-- Outcome of one call `fmt.Fprint(*conn, text)`: it returns without error, it
returns an error, or it does not return (the connection has no write deadline,
so the write waits as long as the peer does not read). -/
inductive WriteRes
  | ok
  | err
  | wait
deriving DecidableEq, Repr

/-- One call `fmt.Fprint(*conn, text)` made by `Start`, with its outcome. -/
structure Write where
  conn : Conn
  text : Str
  res : WriteRes
deriving DecidableEq, Repr

/-- The loop `for conn := range f.sensors` of `Start`'s broadcast case, visiting
the keys in the order `conns`; `wres conn` is the outcome of the write to
`conn`.  A write that returns, with or without an error (which is only
printed), is followed by the next one; a write that does not return is the
last one made.  The result is the writes made, in order, and whether the loop
is stuck in the last of them. -/
def fanout (wres : Conn → WriteRes) (msg : Str) : List Conn → List Write × Bool
  | [] => ([], false)
  | conn :: rest =>
    match wres conn with
    | .wait => ([⟨conn, msg, .wait⟩], true)
    | r => (⟨conn, msg, r⟩ :: (fanout wres msg rest).1, (fanout wres msg rest).2)

/-- The case of `Start`'s select that fires. -/
inductive Select
  | register
  | broadcast
  | unregister
deriving DecidableEq, Repr

/-- What one iteration of `Start`'s loop did: the state after it, the event it
received, the writes it made (in order), the handler it started, and whether
it is stuck in the middle of the iteration: in the send `f.broadcast <- ...`
of the register case (nothing but `Start` receives from `broadcast`) or in a
write of the broadcast case that does not return. -/
structure StartStep where
  farmer : Farmer
  event : Event
  writes : List Write
  spawned : Option SensorConnection
  blocked : Bool

/-- One iteration of the loop of `Start`, for the select case `sel`; `none`
when that channel is empty (select does not choose it).  `wres conn` is the
outcome of the write to `conn`. -/
def Farmer.Start (f : Farmer) (wres : Conn → WriteRes) : Select → Option StartStep
  | .register =>
    match chanRecv f.register with
    | none => none
    | some (s, q) =>
      let f1 : Farmer := { f with register := q, sensors := f.sensors.insert s.conn s.message }
      match chanSend broadcastCap f1.broadcast (registeredText s.message) with
      | none => some ⟨f1, .register s, [], none, true⟩
      | some q1 => some ⟨{ f1 with broadcast := q1 }, .register s, [], some s, false⟩
  | .broadcast =>
    match chanRecv f.broadcast with
    | none => none
    | some (msg, q) =>
      let f1 : Farmer := { f with broadcast := q }
      some ⟨f1, .broadcast msg, (fanout wres msg f1.sensors.keys).1, none,
        (fanout wres msg f1.sensors.keys).2⟩
  | .unregister =>
    match chanRecv f.unregister with
    | none => none
    | some (conn, q) =>
      some ⟨{ f with unregister := q, sensors := f.sensors.erase conn }, .unregister conn, [],
        none, false⟩

/-- One iteration of the loop of `listen`.  `accepted` is the connection
`Accept` returned (`none`: it returned an error, and the loop continues);
`wire` is that connection's input.  The result is `none` while the read or the
send on `register` waits; otherwise the state and, when a connection was
accepted, the value sent on `register` with the input left after the line.  An
error of the read is only printed. -/
def Farmer.listen (f : Farmer) (accepted : Option Conn) (wire : Stream) :
    Option (Farmer × Option (SensorConnection × Stream)) :=
  match accepted with
  | none => some (f, none)
  | some conn =>
    match ReadString '\n' wire with
    | none => none
    | some (rd, rest) =>
      let s : SensorConnection := ⟨rd.msg, conn⟩
      match chanSend registerCap f.register s with
      | none => none
      | some q => some ({ f with register := q }, some (s, rest))

/-- Body of the loop of `handle` after `ReadString` returned `rd`: the value it
sends and on which channel, and whether the loop goes on (`break` otherwise). -/
def Farmer.handleIter (s : SensorConnection) (rd : ReadResult) : Event × Bool :=
  match rd.err with
  | some _ => (.unregister s.conn, false)
  | none => (.broadcast (sensorMessageText rd.msg), true)

/-- The loop of `handle`, driven by what its successive `ReadString` calls
return: the values it sends, in order, and the number of reads it performs.
When the results run out the handler is waiting in its next read. -/
def Farmer.handle (s : SensorConnection) : List ReadResult → List Event × Nat
  | [] => ([], 0)
  | rd :: later =>
    match Farmer.handleIter s rd with
    | (ev, false) => ([ev], 1)
    | (ev, true) => (ev :: (Farmer.handle s later).1, (Farmer.handle s later).2 + 1)

/-- Send `ev` on its channel; `none` when that channel is full. -/
def Farmer.submit (f : Farmer) : Event → Option Farmer
  | .register s => (chanSend registerCap f.register s).map (fun q => { f with register := q })
  | .broadcast msg => (chanSend broadcastCap f.broadcast msg).map (fun q => { f with broadcast := q })
  | .unregister conn =>
    (chanSend unregisterCap f.unregister conn).map (fun q => { f with unregister := q })

/-- Sensor represents a client that connects to the Farmer server. -/
structure Sensor where
  serialNo : Str
  conn : Conn
deriving DecidableEq, Repr

/-- ConnectSensor: `dialled` is the connection `net.Dial` returned (`none`: it
failed).  Nothing is written to the connection. -/
def ConnectSensor (serialNo : Str) (dialled : Option Conn) : Option Sensor :=
  match dialled with
  | none => none
  | some conn => some ⟨serialNo, conn⟩

/-- Send: the bytes handed to the connection,
`fmt.Fprintf(s.conn, "SensorID: %s, Message: %s", s.serialNo, msg)`. -/
def Sensor.Send (s : Sensor) (msg : Str) : Str :=
  "SensorID: ".toList ++ s.serialNo ++ ", Message: ".toList ++ msg

/-- Read on the sensor's input `down`, with a reader of its own: an error
returns the empty string with the error. -/
def Sensor.Read (down : Stream) : Option ReadResult :=
  match ReadString '\n' down with
  | none => none
  | some (rd, _) =>
    match rd.err with
    | some e => some ⟨[], some e⟩
    | none => some ⟨rd.msg, none⟩

/-- The running program: the server's state, the connections, the goroutines.
`next` is the connection the next dial creates; `backlog` the dialled
connections `Accept` has not returned yet, oldest first; `up conn` what the
sensor of `conn` wrote and the server has not read; `handlers` the running
`handle` goroutines; `hubBlocked` tells that `Start` is stuck in its send;
`writes` and `processed` record, oldest first, every write `Start` attempted
and every event it received. -/
structure Sys where
  farmer : Farmer
  next : Conn
  backlog : List Conn
  up : Conn → Stream
  handlers : List SensorConnection
  hubBlocked : Bool
  writes : List Write
  processed : List Event

/-- The program right after `NewFarmer` returned `f`: no connection yet. -/
def Sys.init (f : Farmer) : Sys :=
  ⟨f, 0, [], fun _ => ⟨[], none⟩, [], false, [], []⟩

/-- One step of one goroutine or of one sensor.
* `dial`: a sensor's `net.Dial` succeeds (`ConnectSensor`).
* `send s msg`: `s.Send(msg)` on an open connection.
* `close conn`: the sensor closes `conn`.
* `acceptErr`: an iteration of `listen` in which `Accept` fails.
* `accept lost`: an iteration of `listen` on the oldest dialled connection.
  The reader of `listen` is dropped after its one `ReadString` and `handle`
  makes a new one, so the `lost` bytes that reader had buffered beyond the
  first line never reach the handler.
* `handle conn`: one iteration of the loop of `conn`'s handler.
* `hub sel wres`: one iteration of `Start`, `wres` giving the outcome of its
  writes. -/
inductive Action
  | dial
  | send (s : Sensor) (msg : Str)
  | close (conn : Conn)
  | acceptErr
  | accept (lost : Nat)
  | handle (conn : Conn)
  | hub (sel : Select) (wres : Conn → WriteRes)

/-- Effect of an action; `none` when it cannot happen in this state (its
goroutine waits, or the connection does not exist or is closed). -/
def step (sys : Sys) : Action → Option Sys
  | .dial => some { sys with next := sys.next + 1, backlog := sys.backlog ++ [sys.next] }
  | .send s msg =>
    if s.conn < sys.next ∧ (sys.up s.conn).fin = none then
      some { sys with
        up := Function.update sys.up s.conn ⟨(sys.up s.conn).data ++ s.Send msg, none⟩ }
    else none
  | .close conn =>
    if conn < sys.next ∧ (sys.up conn).fin = none then
      some { sys with up := Function.update sys.up conn ⟨(sys.up conn).data, some .EOF⟩ }
    else none
  | .acceptErr =>
    match sys.farmer.listen none ⟨[], none⟩ with
    | none => none
    | some (f, _) => some { sys with farmer := f }
  | .accept lost =>
    match sys.backlog with
    | [] => none
    | conn :: waiting =>
      match sys.farmer.listen (some conn) (sys.up conn) with
      | some (f, some (_, rest)) =>
        some { sys with
          farmer := f, backlog := waiting,
          up := Function.update sys.up conn ⟨rest.data.drop lost, rest.fin⟩ }
      | _ => none
  | .handle conn =>
    match sys.handlers.find? (fun s => s.conn = conn) with
    | none => none
    | some s =>
      match ReadString '\n' (sys.up conn) with
      | none => none
      | some (rd, rest) =>
        match sys.farmer.submit (Farmer.handleIter s rd).1 with
        | none => none
        | some f =>
          some { sys with
            farmer := f, up := Function.update sys.up conn rest,
            handlers :=
              if (Farmer.handleIter s rd).2 then sys.handlers
              else sys.handlers.filter (fun h => h.conn ≠ conn) }
  | .hub sel wres =>
    if sys.hubBlocked then none
    else
      match sys.farmer.Start wres sel with
      | none => none
      | some st =>
        some { sys with
          farmer := st.farmer, handlers := sys.handlers ++ st.spawned.toList,
          hubBlocked := st.blocked, writes := sys.writes ++ st.writes,
          processed := sys.processed ++ [st.event] }

/-- Run a schedule; `none` when one of its steps cannot happen. -/
def exec (sys : Sys) : List Action → Option Sys
  | [] => some sys
  | a :: rest =>
    match step sys a with
    | none => none
    | some sys1 => exec sys1 rest

/-- The bytes that reached the sensor of `conn`: the texts of the writes to it
that returned without error, in order. -/
def received (ws : List Write) (conn : Conn) : Str :=
  match ws with
  | [] => []
  | w :: rest =>
    if w.conn = conn ∧ w.res = .ok then w.text ++ received rest conn else received rest conn

/-- The writes attempted on `conn`, in order. -/
def writesTo (ws : List Write) (conn : Conn) : List Write :=
  ws.filter (fun w => w.conn = conn)

/-- The outcomes of writes that all return: with an error where `werr` says
so, without one elsewhere. -/
def returning (werr : Conn → Bool) : Conn → WriteRes :=
  fun conn => if werr conn then .err else .ok

/-- The outcomes of writes that all return without error. -/
def noWriteErr : Conn → WriteRes := fun _ => .ok

/-- The outcomes of writes none of which returns: no peer reads. -/
def noPeerReads : Conn → WriteRes := fun _ => .wait

/-- A schedule up to a running server with one sensor and nothing pending:
"Temp-00" connects and registers with its first line, and its announcement has
been broadcast. -/
def oneSensorSchedule : List Action :=
  [.dial, .send ⟨"Temp-00".toList, 0⟩ "on\n".toList, .accept 0, .hub .register noWriteErr,
    .hub .broadcast noWriteErr]

/-- The state `oneSensorSchedule` leads to from the fresh server. -/
def oneSensorServer : Sys :=
  (exec (Sys.init freshFarmer) oneSensorSchedule).getD (Sys.init freshFarmer)

/-- On the server of `oneSensorSchedule`, "Temp-00" sends "hi\n" and its handler
reads the line, which waits in `broadcast`; then "Temp-01" connects, makes
`Send("10C\n")` its first write, `listen` accepts it, and `Start` takes the
register case and then the broadcast case. -/
def busySchedule : List Action :=
  [.send ⟨"Temp-00".toList, 0⟩ "hi\n".toList, .handle 0,
    .dial, .send ⟨"Temp-01".toList, 1⟩ "10C\n".toList, .accept 0, .hub .register noWriteErr,
    .hub .broadcast noWriteErr]

/-- On the server of `oneSensorSchedule`, "Temp-01" connects and makes
`Send("10C\n")` its first write; before `listen` accepts it, "Temp-00" sends
"hi\n" and its handler reads the line; then `listen` accepts the connection
and `Start` takes the register case and then the broadcast case. -/
def steppedInSchedule : List Action :=
  [.dial, .send ⟨"Temp-01".toList, 1⟩ "10C\n".toList,
    .send ⟨"Temp-00".toList, 0⟩ "hi\n".toList, .handle 0,
    .accept 0, .hub .register noWriteErr, .hub .broadcast noWriteErr]

/-- A schedule that fills `broadcast` and then registers a second sensor: a
sensor connects and registers with its first line (the announcement is left
in `broadcast`), then sends nineteen lines which its handler reads one by one
while `Start` is busy elsewhere, then a second sensor connects, sends a line,
is accepted, and `Start`'s select takes the register case. -/
def fullBroadcastSchedule : List Action :=
  [.dial, .send ⟨"Temp-01".toList, 0⟩ "on\n".toList, .accept 0, .hub .register noWriteErr] ++
    (List.replicate 19
      [Action.send ⟨"Temp-01".toList, 0⟩ "10C\n".toList, Action.handle 0]).flatten ++
    [.dial, .send ⟨"Temp-02".toList, 1⟩ "on\n".toList, .accept 0, .hub .register noWriteErr]

/-- A schedule in which a sensor connects and closes at once, so that the
first-line read of `listen` fails with `io.EOF`. -/
def closedEarlySchedule : List Action :=
  [.dial, .close 0, .accept 0, .hub .register noWriteErr]

/-- The scenario of the two sensors: "Temp-01" connects and calls
`Send("10C\n")`, "Temp-02" connects and sends nothing; then the server does
all it can: `listen` accepts the first connection and reads its line, `Start`
takes the register event and then the broadcast. -/
def twoSensorSchedule : List Action :=
  [.dial, .send ⟨"Temp-01".toList, 0⟩ "10C\n".toList, .dial, .accept 0,
    .hub .register noWriteErr, .hub .broadcast noWriteErr]

/-- A schedule in which two sensors register, each with its first line, and
the first one then closes: its handler meets end of stream and sends the
unregister, which `Start` receives. -/
def leaveSchedule : List Action :=
  [.dial, .send ⟨"Temp-01".toList, 0⟩ "on\n".toList, .accept 0, .hub .register noWriteErr,
    .hub .broadcast noWriteErr,
    .dial, .send ⟨"Temp-02".toList, 1⟩ "on\n".toList, .accept 0, .hub .register noWriteErr,
    .close 0, .handle 0, .hub .unregister noWriteErr]

/-- The state `leaveSchedule` leads to from the fresh server. -/
def afterLeave : Sys :=
  (exec (Sys.init freshFarmer) leaveSchedule).getD (Sys.init freshFarmer)

/-- A server with connections 0 and 1 registered and one broadcast pending. -/
def twoSensorFarmer : Farmer :=
  { sensors := AList.insert 1 "b\n".toList (AList.insert 0 "a\n".toList ∅),
    register := [], unregister := [], broadcast := ["hello\n".toList] }

/-- The actions of the server's goroutines (`listen`, the handlers, `Start`),
as opposed to those of the sensors. -/
def Action.isServer : Action → Bool
  | .acceptErr => true
  | .accept _ => true
  | .handle _ => true
  | .hub _ _ => true
  | _ => false

/-- The state after the sensors' part of `twoSensorSchedule`: "Temp-01" has
connected and called `Send("10C\n")`, "Temp-02" has connected. -/
def twoSensorStart : Sys :=
  (exec (Sys.init freshFarmer)
    [.dial, .send ⟨"Temp-01".toList, 0⟩ "10C\n".toList, .dial]).getD (Sys.init freshFarmer)

/-- A running server with nothing pending, as a sensor about to connect finds
it: no connection waiting to be accepted, `register` and `broadcast` empty,
`Start` not stuck; and the connection the sensor is about to get is new:
nothing was sent on it and nothing was written to it. -/
def Sys.Idle (sys : Sys) : Prop :=
  sys.backlog = [] ∧ sys.farmer.register = [] ∧ sys.farmer.broadcast = [] ∧
    sys.hubBlocked = false ∧ sys.up sys.next = ⟨[], none⟩ ∧ received sys.writes sys.next = []

/-- The label that the events of `trace`, taken in order from `start`, leave
for `conn`: a register for `conn` sets it, an unregister for `conn` clears
it, any other event keeps it. -/
def labelAfter (conn : Conn) (start : Option Str) (trace : List Event) : Option Str :=
  trace.foldl
    (fun acc e =>
      match e with
      | .register s => if s.conn = conn then some s.message else acc
      | .unregister c => if c = conn then none else acc
      | .broadcast _ => acc)
    start

/-! ## Lemmas -/

theorem splitDelim_line (d : Char) (l r : Str) (h : d ∉ l) :
    splitDelim d (l ++ d :: r) = some (l ++ [d], r) := by
  induction l with
  | nil => simp [splitDelim]
  | cons c cs ih =>
    have hc : c ≠ d := fun e => h (by simp [e])
    have hcs : d ∉ cs := fun e => h (by simp [e])
    simp [splitDelim, hc, ih hcs]

theorem splitDelim_none (d : Char) (l : Str) (h : d ∉ l) : splitDelim d l = none := by
  induction l with
  | nil => simp [splitDelim]
  | cons c cs ih =>
    have hc : c ≠ d := fun e => h (by simp [e])
    have hcs : d ∉ cs := fun e => h (by simp [e])
    simp [splitDelim, hc, ih hcs]

theorem ReadString_line (d : Char) (l r : Str) (fin : Option ReadErr) (h : d ∉ l) :
    ReadString d ⟨l ++ d :: r, fin⟩ = some (⟨l ++ [d], none⟩, ⟨r, fin⟩) := by
  simp [ReadString, splitDelim_line d l r h]

theorem writesTo_map_of_mem (g : Conn → Write) (hg : ∀ c, (g c).conn = c) (conn : Conn) :
    ∀ l : List Conn, l.Nodup → conn ∈ l → writesTo (l.map g) conn = [g conn] := by
  intro l
  induction l with
  | nil => intro _ h; simp at h
  | cons c cs ih =>
    intro hnd hmem
    have hc : c ∉ cs := (List.nodup_cons.mp hnd).1
    have hcs : cs.Nodup := (List.nodup_cons.mp hnd).2
    by_cases e : c = conn
    · subst e
      have : writesTo (cs.map g) c = [] := by
        simp only [writesTo, List.filter_eq_nil_iff, List.mem_map]
        rintro w ⟨x, hx, rfl⟩
        simp only [hg, decide_eq_true_eq]
        rintro rfl
        exact hc hx
      simp only [writesTo] at this
      simp [writesTo, hg, this]
    · have hmem2 : conn ∈ cs := by
        rcases List.mem_cons.mp hmem with h | h
        · exact absurd h.symm e
        · exact h
      have := ih hcs hmem2
      simp only [writesTo] at this
      simp [writesTo, hg, e, this]

theorem writesTo_map_of_not_mem (g : Conn → Write) (hg : ∀ c, (g c).conn = c) (conn : Conn)
    (l : List Conn) (h : conn ∉ l) : writesTo (l.map g) conn = [] := by
  simp only [writesTo, List.filter_eq_nil_iff, List.mem_map]
  rintro w ⟨x, hx, rfl⟩
  simp only [hg, decide_eq_true_eq]
  rintro rfl
  exact h hx

theorem erase_of_not_mem (m : AList (fun _ : Conn => Str)) (conn : Conn) (h : conn ∉ m) :
    m.erase conn = m := by
  apply AList.ext
  simp only [AList.erase]
  exact List.kerase_of_not_mem_keys h

theorem erase_erase_self (m : AList (fun _ : Conn => Str)) (conn : Conn) :
    (m.erase conn).erase conn = m.erase conn :=
  erase_of_not_mem _ _ (by simp [AList.mem_erase])

theorem returning_ne_wait (werr : Conn → Bool) (conn : Conn) :
    returning werr conn ≠ .wait := by
  unfold returning
  split <;> simp

theorem fanout_of_no_wait (wres : Conn → WriteRes) (msg : Str) :
    ∀ l : List Conn, (∀ c ∈ l, wres c ≠ .wait) →
      fanout wres msg l = (l.map (fun c => ⟨c, msg, wres c⟩), false) := by
  intro l
  induction l with
  | nil => intro _; rfl
  | cons c cs ih =>
    intro h
    have hc : wres c ≠ .wait := h c (by simp)
    have ih2 := ih (fun x hx => h x (by simp [hx]))
    cases hr : wres c with
    | wait => exact absurd hr hc
    | ok => simp [fanout, hr, ih2]
    | err => simp [fanout, hr, ih2]

theorem fanout_returning (werr : Conn → Bool) (msg : Str) (l : List Conn) :
    fanout (returning werr) msg l = (l.map (fun c => ⟨c, msg, returning werr c⟩), false) :=
  fanout_of_no_wait _ msg l (fun c _ => returning_ne_wait werr c)

/-- The writes of the loop are those to the keys it visited, which are the keys
up to the first one whose write does not return, that one included. -/
theorem fanout_shape (wres : Conn → WriteRes) (msg : Str) :
    ∀ l : List Conn, ∃ visited later, l = visited ++ later ∧
      (fanout wres msg l).1 = visited.map (fun c => ⟨c, msg, wres c⟩) ∧
      (((fanout wres msg l).2 = false ∧ later = [] ∧ ∀ c ∈ visited, wres c ≠ .wait) ∨
        ((fanout wres msg l).2 = true ∧
          ∃ done c, visited = done ++ [c] ∧ wres c = .wait ∧ ∀ d ∈ done, wres d ≠ .wait)) := by
  intro l
  induction l with
  | nil => exact ⟨[], [], rfl, rfl, Or.inl ⟨rfl, rfl, by simp⟩⟩
  | cons c cs ih =>
    obtain ⟨visited, later, hl, hw, hcase⟩ := ih
    by_cases hr : wres c = .wait
    · refine ⟨[c], cs, rfl, by simp [fanout, hr], Or.inr ⟨by simp [fanout, hr], [], c, rfl, hr, ?_⟩⟩
      simp
    · have hf : fanout wres msg (c :: cs) =
          (⟨c, msg, wres c⟩ :: (fanout wres msg cs).1, (fanout wres msg cs).2) := by
        cases hr2 : wres c with
        | wait => exact absurd hr2 hr
        | ok => simp [fanout, hr2]
        | err => simp [fanout, hr2]
      refine ⟨c :: visited, later, by simp [hl], by simp [hf, hw], ?_⟩
      rcases hcase with ⟨h1, h2, h3⟩ | ⟨h1, done, k, h2, h3, h4⟩
      · refine Or.inl ⟨by simp [hf, h1], h2, ?_⟩
        intro x hx
        rcases List.mem_cons.mp hx with e | e
        · subst e
          exact hr
        · exact h3 x e
      · refine Or.inr ⟨by simp [hf, h1], c :: done, k, by simp [h2], h3, ?_⟩
        intro x hx
        rcases List.mem_cons.mp hx with e | e
        · subst e
          exact hr
        · exact h4 x e

/-- The broadcast case of `Start`.  It leaves the registry as it was.  It visits
the keys in order up to the first one whose write does not return: every
write is of `msg`, on a key of the registry, with the outcome `wres` gives; a
key has one write if it was visited and none otherwise, a connection outside
the registry none.  When every write returns, with or without error, every
key is visited and the iteration completes; when one does not return, the
iteration is stuck in it, the writes before it all having returned. -/
theorem Start_broadcast_step (f : Farmer) (wres : Conn → WriteRes) (msg : Str) (q : List Str)
    (hq : f.broadcast = msg :: q) :
    ∃ st visited later, f.Start wres .broadcast = some st ∧
      st.event = .broadcast msg ∧ st.farmer.sensors = f.sensors ∧
      f.sensors.keys = visited ++ later ∧
      st.writes = visited.map (fun c => ⟨c, msg, wres c⟩) ∧
      (∀ conn, conn ∈ visited → writesTo st.writes conn = [⟨conn, msg, wres conn⟩]) ∧
      (∀ conn, conn ∉ visited → writesTo st.writes conn = []) ∧
      (st.blocked = true ↔ ∃ c, c ∈ f.sensors ∧ wres c = .wait) ∧
      ((∀ c, c ∈ f.sensors → wres c ≠ .wait) → later = [] ∧ st.blocked = false) ∧
      (st.blocked = true →
        ∃ done c, visited = done ++ [c] ∧ wres c = .wait ∧ ∀ d ∈ done, wres d ≠ .wait) := by
  obtain ⟨visited, later, hl, hw, hcase⟩ := fanout_shape wres msg f.sensors.keys
  have hnd : visited.Nodup := by
    have := f.sensors.keys_nodup
    rw [hl] at this
    exact (List.nodup_append.mp this).1
  have hdisj : ∀ c, c ∈ visited → c ∉ later := by
    have := f.sensors.keys_nodup
    rw [hl] at this
    exact fun c h1 h2 => (List.nodup_append.mp this).2.2 h1 h2
  refine ⟨⟨{ f with broadcast := q }, .broadcast msg, (fanout wres msg f.sensors.keys).1, none,
    (fanout wres msg f.sensors.keys).2⟩, visited, later, ?_, rfl, rfl, hl, hw, ?_, ?_, ?_, ?_, ?_⟩
  · simp [Farmer.Start, chanRecv, hq]
  · intro conn hconn
    show writesTo (fanout wres msg f.sensors.keys).1 conn = _
    rw [hw]
    exact writesTo_map_of_mem (fun c => ⟨c, msg, wres c⟩) (fun _ => rfl) conn _ hnd hconn
  · intro conn hconn
    show writesTo (fanout wres msg f.sensors.keys).1 conn = _
    rw [hw]
    exact writesTo_map_of_not_mem (fun c => ⟨c, msg, wres c⟩) (fun _ => rfl) conn _ hconn
  · show (fanout wres msg f.sensors.keys).2 = true ↔ _
    constructor
    · intro hb
      rcases hcase with ⟨h1, _, _⟩ | ⟨_, done, c, h2, h3, _⟩
      · rw [h1] at hb
        exact absurd hb (by simp)
      · refine ⟨c, AList.mem_keys.mpr ?_, h3⟩
        rw [hl, h2]
        simp
    · rintro ⟨c, hc, hwait⟩
      rcases hcase with ⟨_, h2, h3⟩ | ⟨h1, _⟩
      · have : c ∈ visited := by
          have := AList.mem_keys.mp hc
          rw [hl, h2] at this
          simpa using this
        exact absurd hwait (h3 c this)
      · exact h1
  · intro hno
    show later = [] ∧ (fanout wres msg f.sensors.keys).2 = false
    rcases hcase with ⟨h1, h2, _⟩ | ⟨_, done, c, h2, h3, _⟩
    · exact ⟨h2, h1⟩
    · have : c ∈ f.sensors := by
        apply AList.mem_keys.mpr
        rw [hl, h2]
        simp
      exact absurd h3 (hno c this)
  · intro hb
    change (fanout wres msg f.sensors.keys).2 = true at hb
    rcases hcase with ⟨h1, _, _⟩ | ⟨_, h⟩
    · rw [h1] at hb
      exact absurd hb (by simp)
    · exact h

theorem writesTo_fanout_of_not_mem (wres : Conn → WriteRes) (msg : Str) (conn : Conn)
    (l : List Conn) (h : conn ∉ l) : writesTo (fanout wres msg l).1 conn = [] := by
  obtain ⟨visited, later, hl, hw, _⟩ := fanout_shape wres msg l
  rw [hw]
  apply writesTo_map_of_not_mem (fun c => ⟨c, msg, wres c⟩) (fun _ => rfl)
  intro hv
  exact h (by rw [hl]; simp [hv])

theorem received_append (ws1 ws2 : List Write) (conn : Conn) :
    received (ws1 ++ ws2) conn = received ws1 conn ++ received ws2 conn := by
  induction ws1 with
  | nil => rfl
  | cons w ws ih =>
    by_cases h : w.conn = conn ∧ w.res = .ok <;> simp [received, h, ih]

theorem received_eq_writesTo (ws : List Write) (conn : Conn) :
    received ws conn = received (writesTo ws conn) conn := by
  induction ws with
  | nil => rfl
  | cons w ws ih =>
    by_cases h : w.conn = conn
    · by_cases hok : w.res = .ok
      · simp only [writesTo] at ih
        simp [received, writesTo, h, hok, ← ih]
      · simp only [writesTo] at ih
        simp [received, writesTo, h, hok, ← ih]
    · simp only [writesTo] at ih
      simp [received, writesTo, h, ← ih]

theorem received_fanout (m : AList (fun _ : Conn => Str)) (werr : Conn → Bool) (msg : Str)
    (conn : Conn) (hmem : conn ∈ m) (hw : werr conn = false) :
    received (m.keys.map (fun c => (⟨c, msg, returning werr c⟩ : Write))) conn = msg := by
  rw [received_eq_writesTo,
    writesTo_map_of_mem (fun c => ⟨c, msg, returning werr c⟩) (fun _ => rfl) conn _ m.keys_nodup
      (AList.mem_keys.mp hmem)]
  simp [received, returning, hw]

theorem Send_line (s : Sensor) (p : Str) (hs : '\n' ∉ s.serialNo) (hp : '\n' ∉ p) :
    s.Send (p ++ ['\n']) =
        ("SensorID: ".toList ++ s.serialNo ++ ", Message: ".toList ++ p) ++ ['\n'] ∧
      '\n' ∉ "SensorID: ".toList ++ s.serialNo ++ ", Message: ".toList ++ p := by
  refine ⟨by simp [Sensor.Send], ?_⟩
  simp only [List.mem_append, not_or]
  exact ⟨⟨⟨by decide, hs⟩, by decide⟩, hp⟩

theorem Read_line (l r : Str) (fin : Option ReadErr) (hl : '\n' ∉ l) :
    Sensor.Read ⟨l ++ '\n' :: r, fin⟩ = some ⟨l ++ ['\n'], none⟩ := by
  simp [Sensor.Read, ReadString_line '\n' l r fin hl]

theorem registeredText_line (l : Str) :
    registeredText (l ++ ['\n']) = ("Sensor: ".toList ++ l) ++ '\n' :: " registered\n".toList := by
  simp [registeredText]

theorem exec_first_line (sys0 : Sys) (sensor : Sensor) (msg line : Str) (werr : Conn → Bool)
    (lost : Nat) (hidle : sys0.Idle) (hconn : sensor.conn = sys0.next)
    (hsend : sensor.Send msg = line ++ ['\n']) (hline : '\n' ∉ line)
    (hw : werr sys0.next = false) :
    ∃ sys,
      exec sys0
          [.dial, .send sensor msg, .accept lost, .hub .register (returning werr),
            .hub .broadcast (returning werr)] = some sys ∧
        received sys.writes sys0.next = registeredText (line ++ ['\n']) := by
  obtain ⟨⟨sens, reg, unreg, bc⟩, n, b, up, hs, bl, ws, pr⟩ := sys0
  obtain ⟨hb, hr, hbc, hh, hup, hrecv⟩ := hidle
  obtain ⟨serial, c⟩ := sensor
  simp only at hb hr hbc hh hup hrecv hw hsend hconn
  subst hb hr hbc hh hconn
  have hrd := ReadString_line '\n' line [] none hline
  simp [exec, step, hsend, hup, Farmer.listen, hrd, Farmer.Start, chanRecv, chanSend,
    registerCap, broadcastCap, fanout_returning, -AList.keys_insert]
  rw [received_append, hrecv, List.nil_append]
  exact received_fanout _ werr _ c (by simp [AList.mem_insert]) hw

theorem exec_relay (t1 t2 : Sensor) (m1 m2 m3 l1 l2 l3 : Str) (werr : Conn → Bool)
    (lost1 lost2 : Nat)
    (hc1 : t1.conn = 0) (hc2 : t2.conn = 1)
    (h1 : t1.Send m1 = l1 ++ ['\n']) (hl1 : '\n' ∉ l1)
    (h2 : t2.Send m2 = l2 ++ ['\n']) (hl2 : '\n' ∉ l2)
    (h3 : t1.Send m3 = l3 ++ ['\n']) (hl3 : '\n' ∉ l3) :
    ∃ sys,
      exec (Sys.init freshFarmer)
          [.dial, .send t1 m1, .accept lost1, .hub .register (returning werr),
            .hub .broadcast (returning werr),
            .dial, .send t2 m2, .accept lost2, .hub .register (returning werr),
            .hub .broadcast (returning werr),
            .send t1 m3, .handle 0, .hub .broadcast (returning werr)] = some sys ∧
        writesTo sys.writes 1 =
          [⟨1, registeredText (l2 ++ ['\n']), returning werr 1⟩,
            ⟨1, sensorMessageText (l3 ++ ['\n']), returning werr 1⟩] := by
  obtain ⟨s1, c1⟩ := t1
  obtain ⟨s2, c2⟩ := t2
  simp only at hc1 hc2
  subst hc1 hc2
  have hrd1 := ReadString_line '\n' l1 [] none hl1
  have hrd2 := ReadString_line '\n' l2 [] none hl2
  have hrd3 := ReadString_line '\n' l3 [] none hl3
  simp [exec, step, Sys.init, freshFarmer, h1, h2, h3, Farmer.listen, hrd1, hrd2, hrd3,
    Farmer.Start, chanRecv, chanSend, registerCap, broadcastCap, Farmer.handleIter,
    Farmer.submit, writesTo, fanout_returning]

theorem listen_sensors {f f1 : Farmer} {acc : Option Conn} {wire : Stream}
    {r : Option (SensorConnection × Stream)} (h : f.listen acc wire = some (f1, r)) :
    f1.sensors = f.sensors := by
  cases acc with
  | none =>
    simp only [Farmer.listen, Option.some.injEq, Prod.mk.injEq] at h
    rw [← h.1]
  | some conn =>
    simp only [Farmer.listen] at h
    split at h
    · exact absurd h (by simp)
    · split at h
      · exact absurd h (by simp)
      · simp only [Option.some.injEq, Prod.mk.injEq] at h
        rw [← h.1]

theorem submit_sensors {f f1 : Farmer} {ev : Event} (h : f.submit ev = some f1) :
    f1.sensors = f.sensors := by
  cases ev with
  | register s =>
    simp only [Farmer.submit, Option.map_eq_some'] at h
    obtain ⟨q, _, rfl⟩ := h
    rfl
  | broadcast msg =>
    simp only [Farmer.submit, Option.map_eq_some'] at h
    obtain ⟨q, _, rfl⟩ := h
    rfl
  | unregister conn =>
    simp only [Farmer.submit, Option.map_eq_some'] at h
    obtain ⟨q, _, rfl⟩ := h
    rfl

theorem Start_registry {f : Farmer} {wres : Conn → WriteRes} {sel : Select} {st : StartStep}
    (h : f.Start wres sel = some st) :
    (sel = .broadcast ∧ st.farmer.sensors = f.sensors ∧ ∃ msg, st.event = .broadcast msg) ∨
      (sel = .register ∧ ∃ s, st.event = .register s ∧
        st.farmer.sensors = f.sensors.insert s.conn s.message) ∨
      (sel = .unregister ∧ ∃ c, st.event = .unregister c ∧
        st.farmer.sensors = f.sensors.erase c) := by
  cases sel with
  | register =>
    simp only [Farmer.Start] at h
    split at h
    · exact absurd h (by simp)
    · rename_i s q _
      split at h
      · simp only [Option.some.injEq] at h
        subst h
        exact Or.inr (Or.inl ⟨rfl, s, rfl, rfl⟩)
      · simp only [Option.some.injEq] at h
        subst h
        exact Or.inr (Or.inl ⟨rfl, s, rfl, rfl⟩)
  | broadcast =>
    simp only [Farmer.Start] at h
    split at h
    · exact absurd h (by simp)
    · rename_i msg q _
      simp only [Option.some.injEq] at h
      subst h
      exact Or.inl ⟨rfl, rfl, msg, rfl⟩
  | unregister =>
    simp only [Farmer.Start] at h
    split at h
    · exact absurd h (by simp)
    · rename_i c q _
      simp only [Option.some.injEq] at h
      subst h
      exact Or.inr (Or.inr ⟨rfl, c, rfl, rfl⟩)

theorem step_registry {sys sys2 : Sys} {a : Action} (h : step sys a = some sys2) :
    ((∀ wres, a ≠ .hub .register wres ∧ a ≠ .hub .unregister wres) ∧
        sys2.farmer.sensors = sys.farmer.sensors ∧
        (sys2.processed = sys.processed ∨
          ∃ msg, sys2.processed = sys.processed ++ [.broadcast msg])) ∨
      (∃ s wres, a = .hub .register wres ∧
        sys2.farmer.sensors = sys.farmer.sensors.insert s.conn s.message ∧
        sys2.processed = sys.processed ++ [.register s]) ∨
      ∃ c wres, a = .hub .unregister wres ∧
        sys2.farmer.sensors = sys.farmer.sensors.erase c ∧
        sys2.processed = sys.processed ++ [.unregister c] := by
  cases a with
  | dial =>
    simp only [step, Option.some.injEq] at h
    subst h
    exact Or.inl ⟨by simp, rfl, Or.inl rfl⟩
  | send s msg =>
    simp only [step] at h
    split at h
    · simp only [Option.some.injEq] at h
      subst h
      exact Or.inl ⟨by simp, rfl, Or.inl rfl⟩
    · exact absurd h (by simp)
  | close conn =>
    simp only [step] at h
    split at h
    · simp only [Option.some.injEq] at h
      subst h
      exact Or.inl ⟨by simp, rfl, Or.inl rfl⟩
    · exact absurd h (by simp)
  | acceptErr =>
    simp only [step, Farmer.listen, Option.some.injEq] at h
    subst h
    exact Or.inl ⟨by simp, rfl, Or.inl rfl⟩
  | accept lost =>
    simp only [step] at h
    split at h
    · exact absurd h (by simp)
    · split at h
      · rename_i hl
        simp only [Option.some.injEq] at h
        subst h
        exact Or.inl ⟨by simp, listen_sensors hl, Or.inl rfl⟩
      · exact absurd h (by simp)
  | handle conn =>
    simp only [step] at h
    split at h
    · exact absurd h (by simp)
    · split at h
      · exact absurd h (by simp)
      · split at h
        · exact absurd h (by simp)
        · rename_i hsub
          simp only [Option.some.injEq] at h
          subst h
          exact Or.inl ⟨by simp, submit_sensors hsub, Or.inl rfl⟩
  | hub sel wres =>
    simp only [step] at h
    split at h
    · exact absurd h (by simp)
    · split at h
      · exact absurd h (by simp)
      · rename_i st hst
        simp only [Option.some.injEq] at h
        subst h
        rcases Start_registry hst with ⟨rfl, hs, msg, hev⟩ | ⟨rfl, s, hev, hs⟩ | ⟨rfl, c, hev, hs⟩
        · exact Or.inl ⟨by simp, hs, Or.inr ⟨msg, by simp [hev]⟩⟩
        · exact Or.inr (Or.inl ⟨s, wres, rfl, hs, by simp [hev]⟩)
        · exact Or.inr (Or.inr ⟨c, wres, rfl, hs, by simp [hev]⟩)

theorem labelAfter_cons (conn : Conn) (start : Option Str) (e : Event) (es : List Event) :
    labelAfter conn start (e :: es) = labelAfter conn (labelAfter conn start [e]) es := rfl

theorem labelAfter_append (conn : Conn) (start : Option Str) (t1 t2 : List Event) :
    labelAfter conn start (t1 ++ t2) = labelAfter conn (labelAfter conn start t1) t2 := by
  simp [labelAfter, List.foldl_append]

theorem labelAfter_isSome (conn : Conn) (post : List Event)
    (hun : Event.unregister conn ∉ post) :
    ∀ l : Str, (labelAfter conn (some l) post).isSome = true := by
  induction post with
  | nil => intro l; rfl
  | cons e es ih =>
    intro l
    have hes : Event.unregister conn ∉ es := fun h => hun (List.mem_cons_of_mem _ h)
    rw [labelAfter_cons]
    cases e with
    | register s =>
      by_cases hc : s.conn = conn
      · simpa [labelAfter, hc] using ih hes s.message
      · simpa [labelAfter, hc] using ih hes l
    | broadcast msg => simpa [labelAfter] using ih hes l
    | unregister c =>
      have hc : c ≠ conn := fun e => hun (by simp [e])
      simpa [labelAfter, hc] using ih hes l

theorem labelAfter_keep (conn : Conn) (post : List Event) (l : Option Str)
    (hun : Event.unregister conn ∉ post)
    (hreg : ∀ s2, Event.register s2 ∈ post → s2.conn ≠ conn) :
    labelAfter conn l post = l := by
  induction post with
  | nil => rfl
  | cons e es ih =>
    have hes : Event.unregister conn ∉ es := fun h => hun (List.mem_cons_of_mem _ h)
    have hes2 : ∀ s2, Event.register s2 ∈ es → s2.conn ≠ conn :=
      fun s2 h => hreg s2 (List.mem_cons_of_mem _ h)
    rw [labelAfter_cons]
    cases e with
    | register s =>
      have hc : s.conn ≠ conn := hreg s (by simp)
      simpa [labelAfter, hc] using ih hes hes2
    | broadcast msg => simpa [labelAfter] using ih hes hes2
    | unregister c =>
      have hc : c ≠ conn := fun e => hun (by simp [e])
      simpa [labelAfter, hc] using ih hes hes2

theorem labelAfter_some (conn : Conn) (l : Str) (trace : List Event) :
    ∀ start : Option Str, labelAfter conn start trace = some l →
      (∃ pre s post, trace = pre ++ Event.register s :: post ∧ s.conn = conn ∧
          s.message = l ∧ Event.unregister conn ∉ post ∧
          ∀ s2, Event.register s2 ∈ post → s2.conn ≠ conn) ∨
        (start = some l ∧ Event.unregister conn ∉ trace ∧
          ∀ s2, Event.register s2 ∈ trace → s2.conn ≠ conn) := by
  induction trace with
  | nil =>
    intro start h
    exact Or.inr ⟨h, by simp, by simp⟩
  | cons e es ih =>
    intro start h
    rw [labelAfter_cons] at h
    rcases ih _ h with ⟨pre, s, post, hdec, hc, hm, hun, hreg⟩ | ⟨hstart, hun, hreg⟩
    · exact Or.inl ⟨e :: pre, s, post, by simp [hdec], hc, hm, hun, hreg⟩
    · cases e with
      | register s =>
        by_cases hc : s.conn = conn
        · simp only [labelAfter, List.foldl_cons, List.foldl_nil, hc, if_true,
            Option.some.injEq] at hstart
          exact Or.inl ⟨[], s, es, rfl, hc, hstart, hun, hreg⟩
        · simp only [labelAfter, List.foldl_cons, List.foldl_nil, hc, if_false] at hstart
          refine Or.inr ⟨hstart, by simpa using hun, ?_⟩
          intro s2 h2
          rcases List.mem_cons.mp h2 with h3 | h3
          · cases h3
            exact hc
          · exact hreg s2 h3
      | broadcast msg =>
        simp only [labelAfter, List.foldl_cons, List.foldl_nil] at hstart
        refine Or.inr ⟨hstart, by simpa using hun, ?_⟩
        intro s2 h2
        rcases List.mem_cons.mp h2 with h3 | h3
        · cases h3
        · exact hreg s2 h3
      | unregister c =>
        by_cases hc : c = conn
        · simp [labelAfter, hc] at hstart
        · simp only [labelAfter, List.foldl_cons, List.foldl_nil, hc, if_false] at hstart
          refine Or.inr ⟨hstart, ?_, ?_⟩
          · intro h2
            rcases List.mem_cons.mp h2 with h3 | h3
            · cases h3
              exact hc rfl
            · exact hun h3
          · intro s2 h2
            rcases List.mem_cons.mp h2 with h3 | h3
            · cases h3
            · exact hreg s2 h3

theorem step_lookup {sys sys2 : Sys} {a : Action} (h : step sys a = some sys2)
    (hinv : ∀ c, sys.farmer.sensors.lookup c = labelAfter c none sys.processed) :
    ∀ c, sys2.farmer.sensors.lookup c = labelAfter c none sys2.processed := by
  intro c
  rcases step_registry h with ⟨_, hs, hp | ⟨msg, hp⟩⟩ | ⟨s, wres, _, hs, hp⟩ | ⟨k, wres, _, hs, hp⟩
  · rw [hs, hp, hinv c]
  · rw [hs, hp, labelAfter_append, hinv c]
    rfl
  · rw [hs, hp, labelAfter_append, ← hinv c]
    by_cases hc : s.conn = c
    · subst hc
      simp [labelAfter, AList.lookup_insert]
    · have hc2 : c ≠ s.conn := fun e => hc e.symm
      simp [labelAfter, hc, AList.lookup_insert_ne hc2]
  · rw [hs, hp, labelAfter_append, ← hinv c]
    by_cases hc : k = c
    · subst hc
      simp [labelAfter, AList.lookup_erase]
    · have hc2 : c ≠ k := fun e => hc e.symm
      simp [labelAfter, hc, AList.lookup_erase_ne hc2]

theorem exec_lookup (acts : List Action) :
    ∀ sys sys2 : Sys, exec sys acts = some sys2 →
      (∀ c, sys.farmer.sensors.lookup c = labelAfter c none sys.processed) →
      ∀ c, sys2.farmer.sensors.lookup c = labelAfter c none sys2.processed := by
  induction acts with
  | nil =>
    intro sys sys2 h hinv
    simp only [exec, Option.some.injEq] at h
    subst h
    exact hinv
  | cons a rest ih =>
    intro sys sys2 h hinv
    simp only [exec] at h
    split at h
    · exact absurd h (by simp)
    · rename_i sys1 h1
      exact ih sys1 sys2 h (step_lookup h1 hinv)

theorem step_of_blocked {sys sys2 : Sys} {a : Action} (h : step sys a = some sys2)
    (hb : sys.hubBlocked = true) :
    sys2.hubBlocked = true ∧ sys2.processed = sys.processed ∧ sys2.writes = sys.writes := by
  cases a with
  | dial =>
    simp only [step, Option.some.injEq] at h
    subst h
    exact ⟨hb, rfl, rfl⟩
  | send s msg =>
    simp only [step] at h
    split at h
    · simp only [Option.some.injEq] at h
      subst h
      exact ⟨hb, rfl, rfl⟩
    · exact absurd h (by simp)
  | close conn =>
    simp only [step] at h
    split at h
    · simp only [Option.some.injEq] at h
      subst h
      exact ⟨hb, rfl, rfl⟩
    · exact absurd h (by simp)
  | acceptErr =>
    simp only [step, Farmer.listen, Option.some.injEq] at h
    subst h
    exact ⟨hb, rfl, rfl⟩
  | accept lost =>
    simp only [step] at h
    split at h
    · exact absurd h (by simp)
    · split at h
      · simp only [Option.some.injEq] at h
        subst h
        exact ⟨hb, rfl, rfl⟩
      · exact absurd h (by simp)
  | handle conn =>
    simp only [step] at h
    split at h
    · exact absurd h (by simp)
    · split at h
      · exact absurd h (by simp)
      · split at h
        · exact absurd h (by simp)
        · simp only [Option.some.injEq] at h
          subst h
          exact ⟨hb, rfl, rfl⟩
  | hub sel wres =>
    simp [step, hb] at h

/-- Once `Start` is stuck (in its send on `broadcast`, or in a write that does
not return) it stays stuck: whatever the sensors, `listen` and the handlers do
afterwards, it receives no further event and makes no further write. -/
theorem exec_of_blocked (acts : List Action) :
    ∀ sys sys2 : Sys, exec sys acts = some sys2 → sys.hubBlocked = true →
      sys2.hubBlocked = true ∧ sys2.processed = sys.processed ∧ sys2.writes = sys.writes := by
  induction acts with
  | nil =>
    intro sys sys2 h hb
    simp only [exec, Option.some.injEq] at h
    subst h
    exact ⟨hb, rfl, rfl⟩
  | cons a rest ih =>
    intro sys sys2 h hb
    simp only [exec] at h
    split at h
    · exact absurd h (by simp)
    · rename_i sys1 h1
      obtain ⟨hb1, hp1, hw1⟩ := step_of_blocked h1 hb
      obtain ⟨hb2, hp2, hw2⟩ := ih sys1 sys2 h hb1
      exact ⟨hb2, hp2.trans hp1, hw2.trans hw1⟩

/-- The send of the register case waits exactly when `broadcast` is full: with
20 texts pending the iteration of `Start` that receives a register event
stores the connection and is stuck, with no handler started. -/
theorem Start_register_full (f : Farmer) (wres : Conn → WriteRes) (s : SensorConnection)
    (q : List SensorConnection) (hreg : f.register = s :: q)
    (hfull : f.broadcast.length = 20) :
    ∃ st, f.Start wres .register = some st ∧ st.blocked = true ∧ st.spawned = none ∧
      st.farmer.broadcast = f.broadcast ∧
      st.farmer.sensors = f.sensors.insert s.conn s.message := by
  simp [Farmer.Start, chanRecv, hreg, chanSend, broadcastCap, hfull]

/-- Whenever the first-line read of `listen` fails (no newline before the
error `e`) and `register` has room, `listen` sends the register event all the
same, with what was read so far as the message. -/
theorem listen_read_error (f : Farmer) (conn : Conn) (data : Str) (e : ReadErr)
    (hdata : '\n' ∉ data) (hreg : f.register = []) :
    ReadString '\n' ⟨data, some e⟩ = some (⟨data, some e⟩, ⟨[], some e⟩) ∧
      f.listen (some conn) ⟨data, some e⟩ =
        some ({ f with register := [⟨data, conn⟩] }, some (⟨data, conn⟩, ⟨[], some e⟩)) := by
  have hrd : ReadString '\n' ⟨data, some e⟩ = some (⟨data, some e⟩, ⟨[], some e⟩) := by
    simp [ReadString, splitDelim_none '\n' data hdata]
  exact ⟨hrd, by simp [Farmer.listen, hrd, chanSend, hreg, registerCap]⟩

theorem NewFarmer_fresh : NewFarmer none = .ok freshFarmer ∧ freshFarmer.sensors.keys = [] :=
  ⟨rfl, rfl⟩

theorem writesTo_append (ws1 ws2 : List Write) (conn : Conn) :
    writesTo (ws1 ++ ws2) conn = writesTo ws1 conn ++ writesTo ws2 conn := by
  simp [writesTo]

theorem step_unregistered {sys sys2 : Sys} {a : Action} (k : Conn)
    (h : step sys a = some sys2) (ha : a.isServer = true)
    (j1 : k ∉ sys.farmer.sensors) (j2 : ∀ s ∈ sys.farmer.register, s.conn ≠ k)
    (j3 : ∀ s ∈ sys.handlers, s.conn ≠ k) (j4 : sys.up k = ⟨[], none⟩)
    (j5 : ∃ pre, sys.backlog = pre ++ [k] ∧ k ∉ pre) (j6 : writesTo sys.writes k = []) :
    k ∉ sys2.farmer.sensors ∧ (∀ s ∈ sys2.farmer.register, s.conn ≠ k) ∧
      (∀ s ∈ sys2.handlers, s.conn ≠ k) ∧ sys2.up k = ⟨[], none⟩ ∧
      (∃ pre, sys2.backlog = pre ++ [k] ∧ k ∉ pre) ∧ writesTo sys2.writes k = [] := by
  cases a with
  | dial => simp [Action.isServer] at ha
  | send s msg => simp [Action.isServer] at ha
  | close conn => simp [Action.isServer] at ha
  | acceptErr =>
    simp only [step, Farmer.listen, Option.some.injEq] at h
    subst h
    exact ⟨j1, j2, j3, j4, j5, j6⟩
  | accept lost =>
    obtain ⟨pre, hb, hk⟩ := j5
    cases pre with
    | nil =>
      simp [step, hb, j4, Farmer.listen, ReadString, splitDelim] at h
    | cons c pre2 =>
      have hck : c ≠ k := fun e => hk (by simp [e])
      have hk2 : k ∉ pre2 := fun e => hk (by simp [e])
      simp only [step, hb, List.cons_append] at h
      split at h
      · rename_i f x rest hl
        simp only [Option.some.injEq] at h
        subst h
        simp only [Farmer.listen] at hl
        split at hl
        · exact absurd hl (by simp)
        · split at hl
          · exact absurd hl (by simp)
          · rename_i q hq
            simp only [Option.some.injEq, Prod.mk.injEq] at hl
            obtain ⟨rfl, _, _⟩ := hl
            simp only [chanSend] at hq
            split at hq
            · simp only [Option.some.injEq] at hq
              subst hq
              refine ⟨j1, ?_, j3, ?_, ⟨pre2, rfl, hk2⟩, j6⟩
              · intro s hs
                rcases List.mem_append.mp hs with h1 | h1
                · exact j2 s h1
                · simp only [List.mem_singleton] at h1
                  subst h1
                  exact hck
              · simp [Function.update, hck.symm, j4]
            · exact absurd hq (by simp)
      · exact absurd h (by simp)
  | handle conn =>
    simp only [step] at h
    split at h
    · exact absurd h (by simp)
    · rename_i s hs
      have hmem : s ∈ sys.handlers := List.mem_of_find?_eq_some hs
      have hsc : s.conn = conn := by simpa using List.find?_some hs
      have hck : conn ≠ k := hsc ▸ j3 s hmem
      split at h
      · exact absurd h (by simp)
      · rename_i rd rest _
        split at h
        · exact absurd h (by simp)
        · rename_i f hsub
          simp only [Option.some.injEq] at h
          subst h
          have hreg : f.register = sys.farmer.register := by
            simp only [Farmer.handleIter] at hsub
            split at hsub
            · simp only [Farmer.submit, Option.map_eq_some'] at hsub
              obtain ⟨q, _, rfl⟩ := hsub
              rfl
            · simp only [Farmer.submit, Option.map_eq_some'] at hsub
              obtain ⟨q, _, rfl⟩ := hsub
              rfl
          refine ⟨by rw [submit_sensors hsub]; exact j1, by rw [hreg]; exact j2, ?_, ?_, j5, j6⟩
          · intro x hx
            simp only at hx
            split at hx
            · exact j3 x hx
            · exact j3 x (List.mem_of_mem_filter hx)
          · simp [Function.update, hck.symm, j4]
  | hub sel wres =>
    simp only [step] at h
    split at h
    · exact absurd h (by simp)
    · split at h
      · exact absurd h (by simp)
      · rename_i st hst
        simp only [Option.some.injEq] at h
        subst h
        cases sel with
        | register =>
          simp only [Farmer.Start] at hst
          split at hst
          · exact absurd hst (by simp)
          · rename_i s q hq
            have hreg : sys.farmer.register = s :: q := by
              cases hr : sys.farmer.register with
              | nil => simp [chanRecv, hr] at hq
              | cons s0 q0 =>
                simp only [chanRecv, hr, Option.some.injEq, Prod.mk.injEq] at hq
                rw [hq.1, hq.2]
            have hsk : s.conn ≠ k := j2 s (by simp [hreg])
            have hq2 : ∀ x ∈ q, x.conn ≠ k := fun x hx => j2 x (by simp [hreg, hx])
            have hins : k ∉ sys.farmer.sensors.insert s.conn s.message := by
              simp only [AList.mem_insert, not_or]
              exact ⟨fun e => hsk e.symm, j1⟩
            split at hst
            · simp only [Option.some.injEq] at hst
              subst hst
              exact ⟨hins, hq2, by simpa using j3, j4, j5, by simpa using j6⟩
            · simp only [Option.some.injEq] at hst
              subst hst
              refine ⟨hins, hq2, ?_, j4, j5, by simpa using j6⟩
              intro x hx
              rcases List.mem_append.mp hx with h1 | h1
              · exact j3 x h1
              · simp only [Option.toList, List.mem_singleton] at h1
                subst h1
                exact hsk
        | broadcast =>
          simp only [Farmer.Start] at hst
          split at hst
          · exact absurd hst (by simp)
          · simp only [Option.some.injEq] at hst
            subst hst
            refine ⟨j1, j2, by simpa using j3, j4, j5, ?_⟩
            rw [writesTo_append, j6, List.nil_append]
            exact writesTo_fanout_of_not_mem _ _ k _
              (fun hmem => j1 (AList.mem_keys.mpr hmem))
        | unregister =>
          simp only [Farmer.Start] at hst
          split at hst
          · exact absurd hst (by simp)
          · simp only [Option.some.injEq] at hst
            subst hst
            refine ⟨?_, j2, by simpa using j3, j4, j5, by simpa using j6⟩
            simp only [AList.mem_erase, not_and]
            exact fun _ => j1

/-- A connection that has been dialled but has sent nothing is never
registered and never written to, whatever the server's goroutines do (and
however long they run): `listen` waits in its first-line read once the
connection is the oldest one waiting. -/
theorem exec_unregistered (k : Conn) (acts : List Action) :
    ∀ sys sys2 : Sys, exec sys acts = some sys2 → (∀ a ∈ acts, a.isServer = true) →
      k ∉ sys.farmer.sensors → (∀ s ∈ sys.farmer.register, s.conn ≠ k) →
      (∀ s ∈ sys.handlers, s.conn ≠ k) → sys.up k = ⟨[], none⟩ →
      (∃ pre, sys.backlog = pre ++ [k] ∧ k ∉ pre) → writesTo sys.writes k = [] →
        k ∉ sys2.farmer.sensors ∧ writesTo sys2.writes k = [] := by
  induction acts with
  | nil =>
    intro sys sys2 h _ j1 _ _ _ _ j6
    simp only [exec, Option.some.injEq] at h
    subst h
    exact ⟨j1, j6⟩
  | cons a rest ih =>
    intro sys sys2 h hs j1 j2 j3 j4 j5 j6
    simp only [exec] at h
    split at h
    · exact absurd h (by simp)
    · rename_i sys1 h1
      obtain ⟨k1, k2, k3, k4, k5, k6⟩ :=
        step_unregistered k h1 (hs a (by simp)) j1 j2 j3 j4 j5 j6
      exact ih sys1 sys2 h (fun b hb => hs b (by simp [hb])) k1 k2 k3 k4 k5 k6

/-- In the scenario of the two sensors, whatever the server's goroutines do
after the sensors have acted, "Temp-02" (connection 1) is not registered and
nothing is written to it. -/
theorem twoSensor_never_written (acts : List Action) (sys : Sys)
    (hacts : ∀ a ∈ acts, a.isServer = true) (h : exec twoSensorStart acts = some sys) :
    1 ∉ sys.farmer.sensors ∧ writesTo sys.writes 1 = [] ∧ received sys.writes 1 = [] := by
  obtain ⟨h1, h2⟩ := exec_unregistered 1 acts twoSensorStart sys h hacts (by decide) (by decide)
    (by decide) (by decide) ⟨[0], by decide, by decide⟩ (by decide)
  refine ⟨h1, h2, ?_⟩
  rw [received_eq_writesTo, h2]
  rfl

/-! ## Claims -/

/-- C1 as stated fails.  The server of `oneSensorSchedule` is running, with one
sensor registered and nothing pending (`Sys.Idle`).  In `busySchedule` a line
of that sensor waits in `broadcast` when "Temp-01" connects and makes
`Send("10C\n")` its first write; in `steppedInSchedule` the other sensor's
handler reads the line after "Temp-01" has sent and before `listen` accepts
it.  In both, `Start` registers the new connection, appends the announcement
behind the pending line and writes the pending line to the new connection
first: `Read` returns "sensor message: SensorID: Temp-00, Message: hi\n", not
"Sensor: SensorID: Temp-01, Message: 10C\n". -/
theorem C1_counterexample :
    exec (Sys.init freshFarmer) oneSensorSchedule = some oneSensorServer ∧
      oneSensorServer.Idle ∧
      (∃ sys, exec oneSensorServer busySchedule = some sys ∧
        Sensor.Read ⟨received sys.writes 1, none⟩ =
          some ⟨"sensor message: SensorID: Temp-00, Message: hi\n".toList, none⟩ ∧
        Sensor.Read ⟨received sys.writes 1, none⟩ ≠
          some ⟨"Sensor: SensorID: Temp-01, Message: 10C\n".toList, none⟩) ∧
      ∃ sys, exec oneSensorServer steppedInSchedule = some sys ∧
        Sensor.Read ⟨received sys.writes 1, none⟩ =
          some ⟨"sensor message: SensorID: Temp-00, Message: hi\n".toList, none⟩ ∧
        Sensor.Read ⟨received sys.writes 1, none⟩ ≠
          some ⟨"Sensor: SensorID: Temp-01, Message: 10C\n".toList, none⟩ :=
  ⟨rfl, ⟨rfl, rfl, rfl, rfl, rfl, rfl⟩, ⟨_, rfl, by decide, by decide⟩,
    ⟨_, rfl, by decide, by decide⟩⟩

/-- C1, amended. For every serial number `s` and payload `p` without a newline:
on a running server with nothing pending (`Sys.Idle`: no connection waiting to
be accepted, `register` and `broadcast` empty, `Start` not stuck; with
`Sys.init freshFarmer` it is the server of the test), when a sensor made by
`ConnectSensor(s, addr)` connects and its first write is `Send(p + "\n")`, and
the accept of `listen`, the register case and the broadcast case of `Start`
follow with no step of another sensor or handler in between, the writes of
`Start` all returning and the one to the sensor without error: `listen` takes
the line as the registration message, `Start` registers the connection and
broadcasts the announcement, and a `Read` by the sensor returns exactly
"Sensor: SensorID: " + s + ", Message: " + p + "\n" with a nil error, whatever
is written to it afterwards and whatever `lost` is. -/
theorem C1_first_send_is_echoed (sys0 : Sys) (s p : Str) (werr : Conn → Bool) (lost : Nat)
    (hidle : sys0.Idle) (hs : '\n' ∉ s) (hp : '\n' ∉ p) (hw : werr sys0.next = false) :
    ∃ sensor sys, ConnectSensor s (some sys0.next) = some sensor ∧
      exec sys0
          [.dial, .send sensor (p ++ ['\n']), .accept lost, .hub .register (returning werr),
            .hub .broadcast (returning werr)] = some sys ∧
        ∀ (more : Str) (fin : Option ReadErr),
          Sensor.Read ⟨received sys.writes sensor.conn ++ more, fin⟩ =
            some ⟨"Sensor: SensorID: ".toList ++ s ++ ", Message: ".toList ++ p ++ "\n".toList,
              none⟩ := by
  obtain ⟨hsend, hline⟩ := Send_line ⟨s, sys0.next⟩ p hs hp
  obtain ⟨sys, hexec, hrecv⟩ :=
    exec_first_line sys0 ⟨s, sys0.next⟩ _ _ werr lost hidle rfl hsend hline hw
  refine ⟨⟨s, sys0.next⟩, sys, rfl, hexec, ?_⟩
  intro more fin
  have hl2 : '\n' ∉ "Sensor: ".toList ++
      ("SensorID: ".toList ++ s ++ ", Message: ".toList ++ p) := by
    intro h
    rcases List.mem_append.mp h with h1 | h1
    · exact absurd h1 (by decide)
    · exact hline h1
  show Sensor.Read ⟨received sys.writes sys0.next ++ more, fin⟩ = _
  rw [hrecv, registeredText_line, List.append_assoc, List.cons_append, Read_line _ _ fin hl2]
  simp

/-- Witness of C1 amended: the test, serial number "Temp-01" and payload "10C"
on the fresh server. -/
theorem C1_first_send_is_echoed_witness :
    ((Sys.init freshFarmer).Idle ∧ '\n' ∉ "Temp-01".toList ∧ '\n' ∉ "10C".toList ∧
        (fun _ : Conn => false) (Sys.init freshFarmer).next = false) ∧
      ∃ sensor sys,
        ConnectSensor "Temp-01".toList (some (Sys.init freshFarmer).next) = some sensor ∧
          exec (Sys.init freshFarmer)
              [.dial, .send sensor ("10C".toList ++ ['\n']), .accept 0,
                .hub .register (returning (fun _ => false)),
                .hub .broadcast (returning (fun _ => false))] = some sys ∧
            ∀ (more : Str) (fin : Option ReadErr),
              Sensor.Read ⟨received sys.writes sensor.conn ++ more, fin⟩ =
                some ⟨"Sensor: SensorID: ".toList ++ "Temp-01".toList ++ ", Message: ".toList ++
                    "10C".toList ++ "\n".toList,
                  none⟩ :=
  ⟨⟨⟨rfl, rfl, rfl, rfl, rfl, rfl⟩, by decide, by decide, rfl⟩,
    C1_first_send_is_echoed (Sys.init freshFarmer) "Temp-01".toList "10C".toList
      (fun _ => false) 0 ⟨rfl, rfl, rfl, rfl, rfl, rfl⟩ (by decide) (by decide) rfl⟩

/-- C2 as stated fails. In `twoSensorSchedule` sensor "Temp-01" connects and
calls `Send("10C\n")` and sensor "Temp-02" connects; the server then does all
it can.  The line of "Temp-01" is taken by `listen` as its registration
message, so the one write is the announcement, to connection 0; connection 1
has sent no first line, so `listen` waits in its read and the connection is
not registered; no step of `listen`, of the handler or of `Start` is possible
any more.  Nothing has been written to connection 1: the `Read` of "Temp-02"
does not return, and does not return the relayed line.  (By
`twoSensor_never_written` the same holds under every schedule of the server's
goroutines.) -/
theorem C2_counterexample :
    ∃ sys, exec (Sys.init freshFarmer) twoSensorSchedule = some sys ∧
      sys.writes =
        [⟨0, "Sensor: SensorID: Temp-01, Message: 10C\n registered\n".toList, .ok⟩] ∧
      sys.farmer.sensors.keys = [0] ∧ sys.backlog = [1] ∧
      sys.farmer.broadcast = [] ∧ sys.up 0 = ⟨[], none⟩ ∧ sys.up 1 = ⟨[], none⟩ ∧
      (step sys (.accept 0)).isNone = true ∧ (step sys (.handle 0)).isNone = true ∧
      (step sys (.hub .register noWriteErr)).isNone = true ∧
      (step sys (.hub .broadcast noWriteErr)).isNone = true ∧
      (step sys (.hub .unregister noWriteErr)).isNone = true ∧
      received sys.writes 1 = [] ∧
      Sensor.Read ⟨received sys.writes 1, none⟩ = none ∧
      Sensor.Read ⟨received sys.writes 1, none⟩ ≠
        some ⟨"sensor message: SensorID: Temp-01, Message: 10C\n".toList, none⟩ :=
  ⟨_, rfl, by decide, by decide, by decide, by decide, by decide, by decide, by decide,
    by decide, by decide, by decide, by decide, by decide, by decide, by decide⟩

/-- C2, amended. End-to-end scenario: on the fresh server, once "Temp-01" and
"Temp-02" have each sent a first line (any line `x`, `y` without a newline,
which the accept path takes as that sensor's registration) and `Start` has
registered both, when "Temp-01" calls `Send("10C\n")`, its handler reads that
line and `Start` takes the broadcast (its writes returning, with or without
error), the writes made on the connection of "Temp-02" are its own
registration announcement followed by exactly
"sensor message: SensorID: Temp-01, Message: 10C\n", and a `Read` by "Temp-02"
that starts at that text returns exactly it with a nil error. -/
theorem C2_relay_after_registration (x y : Str) (werr : Conn → Bool) (lost1 lost2 : Nat)
    (hx : '\n' ∉ x) (hy : '\n' ∉ y) :
    ∃ t1 t2 sys,
      ConnectSensor "Temp-01".toList (some 0) = some t1 ∧
        ConnectSensor "Temp-02".toList (some 1) = some t2 ∧
        exec (Sys.init freshFarmer)
            [.dial, .send t1 (x ++ ['\n']), .accept lost1, .hub .register (returning werr),
              .hub .broadcast (returning werr),
              .dial, .send t2 (y ++ ['\n']), .accept lost2, .hub .register (returning werr),
              .hub .broadcast (returning werr),
              .send t1 "10C\n".toList, .handle 0, .hub .broadcast (returning werr)] =
          some sys ∧
        writesTo sys.writes 1 =
          [⟨1, "Sensor: SensorID: Temp-02, Message: ".toList ++ y ++ "\n registered\n".toList,
              returning werr 1⟩,
            ⟨1, "sensor message: SensorID: Temp-01, Message: 10C\n".toList, returning werr 1⟩] ∧
        ∀ (more : Str) (fin : Option ReadErr),
          Sensor.Read ⟨"sensor message: SensorID: Temp-01, Message: 10C\n".toList ++ more, fin⟩ =
            some ⟨"sensor message: SensorID: Temp-01, Message: 10C\n".toList, none⟩ := by
  obtain ⟨h1, hl1⟩ := Send_line ⟨"Temp-01".toList, 0⟩ x (by decide) hx
  obtain ⟨h2, hl2⟩ := Send_line ⟨"Temp-02".toList, 1⟩ y (by decide) hy
  obtain ⟨h3, hl3⟩ := Send_line ⟨"Temp-01".toList, 0⟩ "10C".toList (by decide) (by decide)
  obtain ⟨sys, hexec, hw⟩ :=
    exec_relay ⟨"Temp-01".toList, 0⟩ ⟨"Temp-02".toList, 1⟩ _ _ _ _ _ _ werr lost1 lost2 rfl rfl
      h1 hl1 h2 hl2 h3 hl3
  refine ⟨⟨"Temp-01".toList, 0⟩, ⟨"Temp-02".toList, 1⟩, sys, rfl, rfl, hexec, ?_, ?_⟩
  · rw [hw]
    simp [registeredText, sensorMessageText]
  · intro more fin
    exact Read_line "sensor message: SensorID: Temp-01, Message: 10C".toList more fin (by decide)

/-- Witness of C2 amended: both sensors register with the line "on", no write
fails. -/
theorem C2_relay_after_registration_witness :
    ('\n' ∉ "on".toList ∧ '\n' ∉ "on".toList) ∧
      ∃ t1 t2 sys,
        ConnectSensor "Temp-01".toList (some 0) = some t1 ∧
          ConnectSensor "Temp-02".toList (some 1) = some t2 ∧
          exec (Sys.init freshFarmer)
              [.dial, .send t1 ("on".toList ++ ['\n']), .accept 0,
                .hub .register (returning (fun _ => false)),
                .hub .broadcast (returning (fun _ => false)),
                .dial, .send t2 ("on".toList ++ ['\n']), .accept 0,
                .hub .register (returning (fun _ => false)),
                .hub .broadcast (returning (fun _ => false)),
                .send t1 "10C\n".toList, .handle 0,
                .hub .broadcast (returning (fun _ => false))] = some sys ∧
          writesTo sys.writes 1 =
            [⟨1,
                "Sensor: SensorID: Temp-02, Message: ".toList ++ "on".toList ++
                  "\n registered\n".toList,
                returning (fun _ => false) 1⟩,
              ⟨1, "sensor message: SensorID: Temp-01, Message: 10C\n".toList,
                returning (fun _ => false) 1⟩] ∧
          ∀ (more : Str) (fin : Option ReadErr),
            Sensor.Read
                ⟨"sensor message: SensorID: Temp-01, Message: 10C\n".toList ++ more, fin⟩ =
              some ⟨"sensor message: SensorID: Temp-01, Message: 10C\n".toList, none⟩ :=
  ⟨⟨by decide, by decide⟩,
    C2_relay_after_registration "on".toList "on".toList (fun _ => false) 0 0 (by decide)
      (by decide)⟩

/-- C3. Fan-out wire format: for every sensor `A`, handler `sA` and payload `p`,
with `T` = "sensor message: SensorID: " + serial number of `A` + ", Message: " +
`p` + "\n":
(1) when the serial number and `p` hold no newline, a read of the handler on
input that starts with what `A.Send(p + "\n")` wrote returns exactly that line,
without error, and leaves what follows it;
(2) having read that line the handler sends the broadcast `T` and goes on;
(3) whenever `Start` receives the broadcast `T` while a connection `connB` is
in the registry, the writes it makes on `connB` are exactly one write, of
exactly `T`, or none, and none only when the write to another connection of
the registry does not return; when every write returns, with or without
error, it is exactly the one write of `T`. -/
theorem C3_fanout_wire_format (A : Sensor) (sA : SensorConnection) (p more : Str)
    (fin : Option ReadErr) :
    ('\n' ∉ A.serialNo → '\n' ∉ p →
        ReadString '\n' ⟨A.Send (p ++ ['\n']) ++ more, fin⟩ =
          some (⟨A.Send (p ++ ['\n']), none⟩, ⟨more, fin⟩)) ∧
      Farmer.handleIter sA ⟨A.Send (p ++ ['\n']), none⟩ =
        (.broadcast
            ("sensor message: SensorID: ".toList ++ A.serialNo ++ ", Message: ".toList ++ p ++
              "\n".toList),
          true) ∧
      ∀ (f : Farmer) (wres : Conn → WriteRes) (q : List Str) (connB : Conn),
        f.broadcast =
            ("sensor message: SensorID: ".toList ++ A.serialNo ++ ", Message: ".toList ++ p ++
                "\n".toList) :: q →
          connB ∈ f.sensors →
            ∃ st, f.Start wres .broadcast = some st ∧
              (writesTo st.writes connB =
                  [⟨connB,
                      "sensor message: SensorID: ".toList ++ A.serialNo ++ ", Message: ".toList ++
                        p ++ "\n".toList,
                      wres connB⟩] ∨
                (writesTo st.writes connB = [] ∧
                  ∃ c, c ∈ f.sensors ∧ c ≠ connB ∧ wres c = .wait)) ∧
              ((∀ c, c ∈ f.sensors → wres c ≠ .wait) →
                writesTo st.writes connB =
                  [⟨connB,
                      "sensor message: SensorID: ".toList ++ A.serialNo ++ ", Message: ".toList ++
                        p ++ "\n".toList,
                      wres connB⟩]) := by
  refine ⟨?_, ?_, ?_⟩
  · intro ha hp
    obtain ⟨hsend, hline⟩ := Send_line A p ha hp
    rw [hsend, List.append_assoc]
    exact ReadString_line '\n' _ more fin hline
  · simp [Farmer.handleIter, sensorMessageText, Sensor.Send]
  · intro f wres q connB hq hB
    obtain ⟨st, visited, later, hst, _, _, hkeys, _, hin, hout, hiff, hno, hstuck⟩ :=
      Start_broadcast_step f wres _ q hq
    have hBk : connB ∈ visited ++ later := hkeys ▸ AList.mem_keys.mp hB
    refine ⟨st, hst, ?_, ?_⟩
    · by_cases hv : connB ∈ visited
      · exact Or.inl (hin connB hv)
      · refine Or.inr ⟨hout connB hv, ?_⟩
        have hb : st.blocked = true := by
          by_contra hnb
          have hnone : ∀ c, c ∈ f.sensors → wres c ≠ .wait :=
            fun c hc hw => hnb (hiff.mpr ⟨c, hc, hw⟩)
          have hl := (hno hnone).1
          rw [hl, List.append_nil] at hBk
          exact hv hBk
        obtain ⟨done, c, hvis, hw, _⟩ := hstuck hb
        have hcv : c ∈ visited := by rw [hvis]; simp
        refine ⟨c, AList.mem_keys.mpr (by rw [hkeys]; simp [hcv]), ?_, hw⟩
        rintro rfl
        exact hv hcv
    · intro hnone
      have hl := (hno hnone).1
      rw [hl, List.append_nil] at hBk
      exact hin connB hBk

/-- Witness of C3: sensor "Temp-01" sends "10C\n"; connection 1 of
`twoSensorFarmer` is written the relayed line. -/
theorem C3_fanout_wire_format_witness :
    ('\n' ∉ "Temp-01".toList ∧ '\n' ∉ "10C".toList ∧ 1 ∈ twoSensorFarmer.sensors ∧
        ∀ c, c ∈ twoSensorFarmer.sensors → noWriteErr c ≠ .wait) ∧
      ReadString '\n'
          ⟨(⟨"Temp-01".toList, 0⟩ : Sensor).Send ("10C".toList ++ ['\n']) ++ [], none⟩ =
        some (⟨(⟨"Temp-01".toList, 0⟩ : Sensor).Send ("10C".toList ++ ['\n']), none⟩,
          ⟨[], none⟩) ∧
      ∃ st,
        Farmer.Start
            { twoSensorFarmer with
              broadcast :=
                ("sensor message: SensorID: ".toList ++ "Temp-01".toList ++
                    ", Message: ".toList ++ "10C".toList ++ "\n".toList) :: [] }
            noWriteErr .broadcast = some st ∧
          writesTo st.writes 1 =
            [⟨1,
                "sensor message: SensorID: ".toList ++ "Temp-01".toList ++ ", Message: ".toList ++
                  "10C".toList ++ "\n".toList,
                noWriteErr 1⟩] := by
  have hnone : ∀ c, c ∈ twoSensorFarmer.sensors → noWriteErr c ≠ .wait := by
    intro c _
    simp [noWriteErr]
  obtain ⟨st, hst, _, hw⟩ :=
    (C3_fanout_wire_format ⟨"Temp-01".toList, 0⟩ ⟨"a\n".toList, 0⟩ "10C".toList [] none).2.2
      { twoSensorFarmer with
        broadcast :=
          ("sensor message: SensorID: ".toList ++ "Temp-01".toList ++ ", Message: ".toList ++
              "10C".toList ++ "\n".toList) :: [] }
      noWriteErr [] 1 rfl (by decide)
  exact ⟨⟨by decide, by decide, by decide, hnone⟩,
    (C3_fanout_wire_format ⟨"Temp-01".toList, 0⟩ ⟨"a\n".toList, 0⟩ "10C".toList [] none).1
      (by decide) (by decide),
    st, hst, hw hnone⟩

/-- C4 as stated fails: on the fresh server, when the first line of connection
0 is "Temp-02\n", the accept path and the register step of `Start` leave in
`broadcast` the one text "Sensor: Temp-02\n registered\n", which is not
"Sensor: Temp-02 registered\n". -/
theorem C4_counterexample :
    ∃ f1 s rest st,
      freshFarmer.listen (some 0) ⟨"Temp-02\n".toList, none⟩ = some (f1, some (s, rest)) ∧
        f1.Start noWriteErr .register = some st ∧
        st.farmer.broadcast = ["Sensor: Temp-02\n registered\n".toList] ∧
        st.farmer.broadcast ≠ ["Sensor: Temp-02 registered\n".toList] :=
  ⟨_, _, _, _, rfl, rfl, by decide, by decide⟩

/-- C4, amended. Registration announcement format: for every label `L` without
a newline, when the first line a newly accepted connection delivers is `L`
followed by "\n", `register` is empty and `broadcast` holds fewer than 20
texts, the accept path sends the line with its newline as the registration
message, and the register step of `Start` completes, stores that message for
the connection, starts the handler and appends to `broadcast` exactly one
text, "Sensor: " + L + "\n registered\n": two lines, with exactly two
newlines, one right after the label and one at the end. -/
theorem C4_registration_announcement (f : Farmer) (wres : Conn → WriteRes) (conn : Conn)
    (L more : Str) (fin : Option ReadErr) (hL : '\n' ∉ L) (hreg : f.register = [])
    (hroom : f.broadcast.length < 20) :
    ∃ f1 rest st,
      f.listen (some conn) ⟨L ++ '\n' :: more, fin⟩ =
          some (f1, some (⟨L ++ ['\n'], conn⟩, rest)) ∧
        f1.Start wres .register = some st ∧ st.blocked = false ∧
        st.event = .register ⟨L ++ ['\n'], conn⟩ ∧
        st.spawned = some ⟨L ++ ['\n'], conn⟩ ∧
        st.farmer.sensors.lookup conn = some (L ++ ['\n']) ∧
        st.farmer.broadcast =
          f.broadcast ++ ["Sensor: ".toList ++ L ++ "\n registered\n".toList] ∧
        ("Sensor: ".toList ++ L ++ "\n registered\n".toList).count '\n' = 2 := by
  have hroom2 : f.broadcast.length < broadcastCap := hroom
  refine ⟨{ f with register := [⟨L ++ ['\n'], conn⟩] }, ⟨more, fin⟩, ?_⟩
  refine ⟨⟨{ f with
      register := [], sensors := f.sensors.insert conn (L ++ ['\n']),
      broadcast := f.broadcast ++ [registeredText (L ++ ['\n'])] },
    .register ⟨L ++ ['\n'], conn⟩, [], some ⟨L ++ ['\n'], conn⟩, false⟩,
    ?_, ?_, rfl, rfl, rfl, ?_, ?_, ?_⟩
  · simp [Farmer.listen, ReadString_line '\n' L more fin hL, chanSend, hreg, registerCap]
  · simp [Farmer.Start, chanRecv, chanSend, hroom2]
  · simp [AList.lookup_insert]
  · simp [registeredText]
  · have hc : L.count '\n' = 0 := List.count_eq_zero_of_not_mem hL
    simp [List.count_append, hc]

/-- Witness of C4 amended: label "Temp-02" on the fresh server. -/
theorem C4_registration_announcement_witness :
    ('\n' ∉ "Temp-02".toList ∧ freshFarmer.register = [] ∧ freshFarmer.broadcast.length < 20) ∧
    ∃ f1 rest st,
      freshFarmer.listen (some 0) ⟨"Temp-02".toList ++ '\n' :: [], none⟩ =
          some (f1, some (⟨"Temp-02".toList ++ ['\n'], 0⟩, rest)) ∧
        f1.Start noWriteErr .register = some st ∧ st.blocked = false ∧
        st.event = .register ⟨"Temp-02".toList ++ ['\n'], 0⟩ ∧
        st.spawned = some ⟨"Temp-02".toList ++ ['\n'], 0⟩ ∧
        st.farmer.sensors.lookup 0 = some ("Temp-02".toList ++ ['\n']) ∧
        st.farmer.broadcast =
          freshFarmer.broadcast ++
            ["Sensor: ".toList ++ "Temp-02".toList ++ "\n registered\n".toList] ∧
        ("Sensor: ".toList ++ "Temp-02".toList ++ "\n registered\n".toList).count '\n' = 2 :=
  ⟨⟨by decide, rfl, by decide⟩,
    C4_registration_announcement freshFarmer noWriteErr 0 "Temp-02".toList [] none (by decide) rfl
      (by decide)⟩

/-- C5 as stated fails.  With connections 0 and 1 registered and no peer
reading, the broadcast case of `Start` makes one write, which does not return:
the iteration is stuck in it and the other connection of the registry has no
write.  (Whichever connection is visited first, the other one is not
reached.) -/
theorem C5_counterexample :
    ∃ st, twoSensorFarmer.Start noPeerReads .broadcast = some st ∧
      twoSensorFarmer.sensors.keys = [1, 0] ∧
      st.writes = [⟨1, "hello\n".toList, .wait⟩] ∧ st.blocked = true ∧
      0 ∈ twoSensorFarmer.sensors ∧ writesTo st.writes 0 = [] ∧
      st.writes.length = 1 ∧ twoSensorFarmer.sensors.keys.length = 2 :=
  ⟨_, rfl, by decide, by decide, by decide, by decide, by decide, by decide, by decide⟩

/-- C5, amended. Broadcast step: for every registry, message text and outcome
of the writes, the iteration of `Start` that receives the broadcast `msg`
leaves the registry as it was (no entry is removed on a write failure) and
makes its writes on connections of the registry only, each of `msg`, at most
one per connection.  When every write returns, with or without an error, the
iteration completes and has made exactly one write on every connection of the
registry (none is excepted, so the sender's too): a write that returns an
error does not prevent the write to any other connection.  When the write to
some connection does not return (no deadline is set and the peer does not
read), the iteration is stuck in the first such write: the connections
visited before it have had their one write, which returned, and the
connections after it have none. -/
theorem C5_broadcast_step (f : Farmer) (wres : Conn → WriteRes) (msg : Str) (q : List Str)
    (hq : f.broadcast = msg :: q) :
    ∃ st visited later, f.Start wres .broadcast = some st ∧
      st.event = .broadcast msg ∧ st.farmer.sensors = f.sensors ∧
      f.sensors.keys = visited ++ later ∧
      st.writes = visited.map (fun c => ⟨c, msg, wres c⟩) ∧
      (∀ conn, conn ∈ visited → writesTo st.writes conn = [⟨conn, msg, wres conn⟩]) ∧
      (∀ conn, conn ∉ visited → writesTo st.writes conn = []) ∧
      (st.blocked = true ↔ ∃ c, c ∈ f.sensors ∧ wres c = .wait) ∧
      ((∀ c, c ∈ f.sensors → wres c ≠ .wait) → later = [] ∧ st.blocked = false) ∧
      (st.blocked = true →
        ∃ done c, visited = done ++ [c] ∧ wres c = .wait ∧ ∀ d ∈ done, wres d ≠ .wait) :=
  Start_broadcast_step f wres msg q hq

/-- Witness of C5 amended: two registered connections, the write to connection
0 returning an error. -/
theorem C5_broadcast_step_witness :
    twoSensorFarmer.broadcast = "hello\n".toList :: [] ∧
      ∃ st visited later,
        twoSensorFarmer.Start (returning (fun c => decide (c = 0))) .broadcast = some st ∧
          st.event = .broadcast "hello\n".toList ∧
          st.farmer.sensors = twoSensorFarmer.sensors ∧
          twoSensorFarmer.sensors.keys = visited ++ later ∧
          st.writes =
            visited.map (fun c => ⟨c, "hello\n".toList, returning (fun c => decide (c = 0)) c⟩) ∧
          (∀ conn, conn ∈ visited →
            writesTo st.writes conn =
              [⟨conn, "hello\n".toList, returning (fun c => decide (c = 0)) conn⟩]) ∧
          (∀ conn, conn ∉ visited → writesTo st.writes conn = []) ∧
          (st.blocked = true ↔
            ∃ c, c ∈ twoSensorFarmer.sensors ∧ returning (fun c => decide (c = 0)) c = .wait) ∧
          ((∀ c, c ∈ twoSensorFarmer.sensors →
              returning (fun c => decide (c = 0)) c ≠ .wait) →
            later = [] ∧ st.blocked = false) ∧
          (st.blocked = true →
            ∃ done c, visited = done ++ [c] ∧
              returning (fun c => decide (c = 0)) c = .wait ∧
              ∀ d ∈ done, returning (fun c => decide (c = 0)) d ≠ .wait) :=
  ⟨rfl,
    C5_broadcast_step twoSensorFarmer (returning (fun c => decide (c = 0))) "hello\n".toList []
      rfl⟩

/-- C6 fails on the code. A sensor connects and closes without sending: the
first-line read of `listen` returns the empty string with `io.EOF`, and
`listen` still sends a register event for the connection; `Start` then stores
the connection in the registry, announces it and starts a handler for it. -/
theorem C6_read_failure_still_registers :
    ReadString '\n' ⟨[], some .EOF⟩ = some (⟨[], some .EOF⟩, ⟨[], some .EOF⟩) ∧
      (freshFarmer.listen (some 0) ⟨[], some .EOF⟩).map (fun r => r.1.register) =
        some [⟨[], 0⟩] ∧
      ∃ sys, exec (Sys.init freshFarmer) closedEarlySchedule = some sys ∧
        sys.processed = [.register ⟨[], 0⟩] ∧ sys.farmer.sensors.keys = [0] ∧
        sys.handlers = [⟨[], 0⟩] ∧ sys.farmer.broadcast = ["Sensor:  registered\n".toList] :=
  ⟨rfl, rfl, _, rfl, by decide, by decide, by decide⟩

/-- C7. Handler lifecycle: for every sequence of read results, `handle` sends
one broadcast "sensor message: " + line for each line read before the first
failure, in read order; when the results so far hold no failure it has sent
nothing else and has made one read per line; at the first failure, whatever
the error, it sends one unregister for its own connection and ends, having
made one read per line plus the failed one, whatever would come later. -/
theorem C7_handler_lifecycle (s : SensorConnection) (lines : List ReadResult)
    (hlines : ∀ r ∈ lines, r.err = none) :
    Farmer.handle s lines =
        (lines.map (fun r => Event.broadcast ("sensor message: ".toList ++ r.msg)),
          lines.length) ∧
      ∀ (bad : ReadResult) (later : List ReadResult), bad.err ≠ none →
        Farmer.handle s (lines ++ bad :: later) =
          (lines.map (fun r => Event.broadcast ("sensor message: ".toList ++ r.msg)) ++
              [Event.unregister s.conn],
            lines.length + 1) := by
  induction lines with
  | nil =>
    refine ⟨rfl, ?_⟩
    intro bad later hbad
    cases hb : bad.err with
    | none => exact absurd hb hbad
    | some e => simp [Farmer.handle, Farmer.handleIter, hb]
  | cons r rs ih =>
    have hr : r.err = none := hlines r (by simp)
    have ih2 := ih (fun x hx => hlines x (by simp [hx]))
    refine ⟨?_, ?_⟩
    · simp [Farmer.handle, Farmer.handleIter, hr, ih2.1, sensorMessageText]
    · intro bad later hbad
      simp [Farmer.handle, Farmer.handleIter, hr, ih2.2 bad later hbad, sensorMessageText]

/-- Witness of C7: two lines, then end of stream, then a line that is never
read. -/
theorem C7_handler_lifecycle_witness :
    (∀ r ∈ ([⟨"a\n".toList, none⟩, ⟨"b\n".toList, none⟩] : List ReadResult), r.err = none) ∧
      (Farmer.handle ⟨"Temp-01\n".toList, 3⟩ [⟨"a\n".toList, none⟩, ⟨"b\n".toList, none⟩] =
          (([⟨"a\n".toList, none⟩, ⟨"b\n".toList, none⟩] : List ReadResult).map
              (fun r => Event.broadcast ("sensor message: ".toList ++ r.msg)),
            ([⟨"a\n".toList, none⟩, ⟨"b\n".toList, none⟩] : List ReadResult).length) ∧
        ∀ (bad : ReadResult) (later : List ReadResult), bad.err ≠ none →
          Farmer.handle ⟨"Temp-01\n".toList, 3⟩
              ([⟨"a\n".toList, none⟩, ⟨"b\n".toList, none⟩] ++ bad :: later) =
            (([⟨"a\n".toList, none⟩, ⟨"b\n".toList, none⟩] : List ReadResult).map
                  (fun r => Event.broadcast ("sensor message: ".toList ++ r.msg)) ++
                [Event.unregister (⟨"Temp-01\n".toList, 3⟩ : SensorConnection).conn],
              ([⟨"a\n".toList, none⟩, ⟨"b\n".toList, none⟩] : List ReadResult).length + 1)) :=
  ⟨by decide,
    C7_handler_lifecycle ⟨"Temp-01\n".toList, 3⟩ [⟨"a\n".toList, none⟩, ⟨"b\n".toList, none⟩]
      (by decide)⟩

/-- C8. Idempotent unregister: the iteration of `Start` that receives an
unregister for `conn` completes without a write and without getting stuck;
when `conn` is not in the registry the registry is left as it was; and
receiving an unregister for `conn` again right after leaves the registry as
the first one left it. -/
theorem C8_unregister_idempotent (f : Farmer) (wres : Conn → WriteRes) (conn : Conn)
    (q : List Conn) (hq : f.unregister = conn :: q) :
    ∃ st, f.Start wres .unregister = some st ∧ st.blocked = false ∧ st.writes = [] ∧
      st.event = .unregister conn ∧
      (conn ∉ f.sensors → st.farmer.sensors = f.sensors) ∧
      ∀ q2 : List Conn, ∃ st2,
        Farmer.Start { st.farmer with unregister := conn :: q2 } wres .unregister = some st2 ∧
          st2.blocked = false ∧ st2.farmer.sensors = st.farmer.sensors := by
  refine ⟨_, by simp [Farmer.Start, chanRecv, hq]; rfl, rfl, rfl, rfl, ?_, ?_⟩
  · intro h
    exact erase_of_not_mem _ _ h
  · intro q2
    refine ⟨_, by simp [Farmer.Start, chanRecv]; rfl, rfl, ?_⟩
    exact erase_erase_self _ _

/-- Witness of C8: an unregister for connection 7, which the fresh server
does not have. -/
theorem C8_unregister_idempotent_witness :
    ({ freshFarmer with unregister := [7] } : Farmer).unregister = 7 :: [] ∧
      ∃ st,
        Farmer.Start { freshFarmer with unregister := [7] } noWriteErr .unregister = some st ∧
          st.blocked = false ∧ st.writes = [] ∧ st.event = .unregister 7 ∧
          (7 ∉ ({ freshFarmer with unregister := [7] } : Farmer).sensors →
            st.farmer.sensors = ({ freshFarmer with unregister := [7] } : Farmer).sensors) ∧
          ∀ q2 : List Conn, ∃ st2,
            Farmer.Start { st.farmer with unregister := 7 :: q2 } noWriteErr .unregister =
                some st2 ∧
              st2.blocked = false ∧ st2.farmer.sensors = st.farmer.sensors :=
  ⟨rfl, C8_unregister_idempotent { freshFarmer with unregister := [7] } noWriteErr 7 [] rfl⟩

/-- C9. Registry invariant: start from the empty registry of `NewFarmer`, with
`Start` having received nothing yet (`Sys.init freshFarmer` is such a state;
any events may be pending in the channels, so `Start` can be made to receive
any finite sequence of events).  In every state the program reaches from
there, by whatever schedule, with `processed` the sequence of events `Start`
has received: a connection is a key of the registry if and only if
`processed` holds a register event for it with no later unregister event for
it; the label stored for it is the message of the last such register event
(the one with no later register or unregister for the connection); and every
step other than the register and unregister cases of `Start` (its broadcast
case, the steps of `listen`, of the handlers and of the sensors) leaves the
registry as it was. -/
theorem C9_registry_invariant (acts : List Action) (sys0 sys : Sys)
    (hempty : sys0.farmer.sensors = freshFarmer.sensors) (hnone : sys0.processed = [])
    (hrun : exec sys0 acts = some sys) (conn : Conn) :
    (conn ∈ sys.farmer.sensors ↔
        ∃ pre s post, sys.processed = pre ++ Event.register s :: post ∧ s.conn = conn ∧
          Event.unregister conn ∉ post) ∧
      (∀ pre s post, sys.processed = pre ++ Event.register s :: post → s.conn = conn →
        Event.unregister conn ∉ post → (∀ s2, Event.register s2 ∈ post → s2.conn ≠ conn) →
          sys.farmer.sensors.lookup conn = some s.message) ∧
      ∀ a sys2, step sys a = some sys2 →
        (∀ wres, a ≠ .hub .register wres ∧ a ≠ .hub .unregister wres) →
          sys2.farmer.sensors = sys.farmer.sensors := by
  have hinv := exec_lookup acts sys0 sys hrun
    (fun c => by rw [hempty, hnone]; simp [freshFarmer, labelAfter])
  refine ⟨⟨?_, ?_⟩, ?_, ?_⟩
  · intro hmem
    obtain ⟨l, hl⟩ := Option.isSome_iff_exists.mp (AList.lookup_isSome.mpr hmem)
    rw [hinv conn] at hl
    rcases labelAfter_some conn l _ none hl with ⟨pre, s, post, hdec, hc, _, hun, _⟩ | ⟨h0, _⟩
    · exact ⟨pre, s, post, hdec, hc, hun⟩
    · exact absurd h0 (by simp)
  · rintro ⟨pre, s, post, hdec, hc, hun⟩
    apply AList.lookup_isSome.mp
    rw [hinv conn, hdec, labelAfter_append, labelAfter_cons]
    simpa [labelAfter, hc] using labelAfter_isSome conn post hun s.message
  · intro pre s post hdec hc hun hreg
    rw [hinv conn, hdec, labelAfter_append, labelAfter_cons, labelAfter_keep conn post _ hun hreg]
    simp [labelAfter, hc]
  · intro a sys2 hstep ha
    rcases step_registry hstep with ⟨_, hs, _⟩ | ⟨s, wres, he, _⟩ | ⟨k, wres, he, _⟩
    · exact hs
    · exact absurd he (ha wres).1
    · exact absurd he (ha wres).2

/-- Witness of C9: after `leaveSchedule` connection 1 is registered and
connection 0, registered and then unregistered, is not. -/
theorem C9_registry_invariant_witness :
    ((Sys.init freshFarmer).farmer.sensors = freshFarmer.sensors ∧
        (Sys.init freshFarmer).processed = [] ∧
        exec (Sys.init freshFarmer) leaveSchedule = some afterLeave) ∧
      ((1 ∈ afterLeave.farmer.sensors ↔
          ∃ pre s post, afterLeave.processed = pre ++ Event.register s :: post ∧ s.conn = 1 ∧
            Event.unregister 1 ∉ post) ∧
        (∀ pre s post, afterLeave.processed = pre ++ Event.register s :: post → s.conn = 1 →
          Event.unregister 1 ∉ post → (∀ s2, Event.register s2 ∈ post → s2.conn ≠ 1) →
            afterLeave.farmer.sensors.lookup 1 = some s.message) ∧
        ∀ a sys2, step afterLeave a = some sys2 →
          (∀ wres, a ≠ .hub .register wres ∧ a ≠ .hub .unregister wres) →
            sys2.farmer.sensors = afterLeave.farmer.sensors) :=
  ⟨⟨rfl, rfl, rfl⟩,
    C9_registry_invariant leaveSchedule (Sys.init freshFarmer) afterLeave rfl rfl rfl 1⟩

/-- C10 fails on the code. The schedule `fullBroadcastSchedule` is possible from
the fresh server (every write in it returns); in it `Start` receives the
second register event while `broadcast` holds 20 texts, stores the connection
and then is stuck in its send on `broadcast`: the iteration does not
complete, no handler is started, and no case of the select can fire any
more. -/
theorem C10_register_blocks_when_broadcast_full :
    ∃ sys, exec (Sys.init freshFarmer) fullBroadcastSchedule = some sys ∧
      sys.hubBlocked = true ∧ sys.farmer.broadcast.length = 20 ∧
      sys.farmer.sensors.keys = [1, 0] ∧ sys.handlers.map (fun h => h.conn) = [0] ∧
      (step sys (.hub .register noWriteErr)).isNone = true ∧
      (step sys (.hub .broadcast noWriteErr)).isNone = true ∧
      (step sys (.hub .unregister noWriteErr)).isNone = true :=
  ⟨_, rfl, by decide, by decide, by decide, by decide, by decide, by decide, by decide⟩

end farmer
